import Mathlib

/-!
# A verification development for the Pith interpreter

This file gives a shallow embedding, in Lean 4, of the core of the Pith
language implementation (an indentation-sensitive tokenizer, a tree-walking
interpreter over a mutable heap, and a mark-and-sweep garbage collector),
translated from the C sources (`tokenizer.c`, `parser.h`, `value.h`,
`interpreter.c`, `gc.c`), together with theorems settling a list of claims
about that implementation.

Modelling conventions:
* C pointers to heap objects become `Nat` indices into an explicit heap
  (a `List` of objects, allocation appends).
* C `int` is modelled by `Int` (signed overflow is undefined behaviour in the
  source, so unbounded integers refine every defined execution).
* C `float`/`double` arithmetic is modelled by `Rat`; IEEE rounding and
  infinities are abstracted (no claim in this development depends on float
  arithmetic).
* Calls into the host (file IO, `clock`, `input`, the math natives) are
  modelled by a distinguished `hostCall` outcome.
* Undefined behaviour in the C source (out-of-bounds reads such as a missing
  `children[i]`, division by zero, reads of uninitialized memory) is modelled
  by a distinguished `undef` outcome.
* Functions whose C originals are loops are written with an explicit fuel
  parameter; `stuck` marks fuel exhaustion.
-/

namespace Pith

/-! ## Tokenizer (`tokenizer.h`, `tokenizer.c`) -/

/-- Token kinds, mirroring the `TokenType` enum of `tokenizer.h`. -/
inductive TokenType where
  | keyword | identifier | number | strLit
  | lparen | rparen | lbracket | rbracket | lbrace | rbrace
  | colon | comma | semicolon | dot
  | plus | minus | star | slash | percent | caret | bang
  | gt | lt | gte | lte | eq | neq | assign
  | newline | indent | dedent | eofTok
  | floatLit | boolLit | importKw | extendsKw
deriving DecidableEq, Repr

/-- A token, mirroring `struct Token` of `tokenizer.h`. -/
structure Token where
  type : TokenType
  value : Option String
  lineNum : Nat
deriving DecidableEq, Repr

/-- The keyword table `keywords[]` of `tokenizer.c`. -/
def keywords : List String :=
  ["print", "define", "return", "int", "string", "void", "float", "bool",
   "if", "else", "elif", "while", "for", "foreach", "in", "do", "switch",
   "case", "default", "break", "continue", "pass", "true", "false", "and",
   "or", "map", "import", "class", "new", "list", "extends"]

/-- `is_keyword` of `tokenizer.c`. -/
def is_keyword (w : String) : Bool := keywords.contains w

/-- The leading-whitespace counter of the indentation handler: the C loop
`while (source[i] == ' ' || source[i] == '\t') { spaces++; i++; }`.
Returns the count and the remaining input. -/
def countSpaces : List Char → Nat × List Char
  | c :: cs =>
    if c = ' ' ∨ c = '\t' then
      let (n, rest) := countSpaces cs
      (n + 1, rest)
    else (0, c :: cs)
  | [] => (0, [])

/-- The single-line-comment skip of `tokenize`:
`while (source[i] != '\n' && source[i] != '\0') i++;`.
Stops at (without consuming) the newline. -/
def dropLineComment : List Char → List Char
  | c :: cs => if c = '\n' then c :: cs else dropLineComment cs
  | [] => []

/-- The block-comment skip of `tokenize`: scan for the closing `###`,
counting newlines.  Returns the remaining input and the new line number. -/
def skipBlockComment : List Char → Nat → List Char × Nat
  | '#' :: '#' :: '#' :: rest, ln => (rest, ln)
  | '\n' :: rest, ln => skipBlockComment rest (ln + 1)
  | _ :: rest, ln => skipBlockComment rest ln
  | [], ln => ([], ln)

/-- The DEDENT-emission loop of the indentation handler:
`while (spaces < indent_stack[indent_level]) { add DEDENT; indent_level--; }`.
Returns the number of DEDENT tokens emitted and the popped stack. -/
def popDedents (spaces : Nat) : List Nat → Nat × List Nat
  | top :: rest =>
    if spaces < top then
      let (n, s) := popDedents spaces rest
      (n + 1, s)
    else (0, top :: rest)
  | [] => (0, [])

/-- The layout decision taken at a non-blank line start (lines 172–191 of
`tokenizer.c`): a width strictly greater than the stack top pushes and emits
INDENT, otherwise DEDENTs are emitted while the width is below the top.
Returns the emitted tokens and the updated indentation stack. -/
def layoutStep (spaces : Nat) (stack : List Nat) (ln : Nat) :
    List Token × List Nat :=
  if spaces > stack.headD 0 then
    ([⟨TokenType.indent, none, ln⟩], spaces :: stack)
  else
    let (n, stack') := popDedents spaces stack
    (List.replicate n ⟨TokenType.dedent, none, ln⟩, stack')

/-- String-literal scanning with escape processing (lines 362–402 of
`tokenizer.c`).  Consumes up to and including the closing quote (if any) and
returns the processed contents and the rest of the input. -/
def scanString : List Char → List Char × List Char
  | '"' :: rest => ([], rest)
  | '\\' :: e :: rest =>
    let c :=
      if e = 'n' then '\n'
      else if e = 't' then '\t'
      else if e = '\\' then '\\'
      else if e = '"' then '"'
      else if e = 'r' then '\r'
      else e
    let (s, r) := scanString rest
    (c :: s, r)
  | c :: rest =>
    let (s, r) := scanString rest
    (c :: s, r)
  | [] => ([], [])

/-- Number scanning (lines 405–424 of `tokenizer.c`): a run of digits and
dots; any dot makes it a float literal. -/
def scanNumber : List Char → List Char × List Char
  | c :: cs =>
    if c.isDigit ∨ c = '.' then
      let (w, r) := scanNumber cs
      (c :: w, r)
    else ([], c :: cs)
  | [] => ([], [])

/-- Identifier scanning (lines 427–435): alphanumerics and underscores. -/
def scanWord : List Char → List Char × List Char
  | c :: cs =>
    if c.isAlphanum ∨ c = '_' then
      let (w, r) := scanWord cs
      (c :: w, r)
    else ([], c :: cs)
  | [] => ([], [])

/-- Classification of a scanned word (lines 437–457 of `tokenizer.c`). -/
def wordToken (w : String) (ln : Nat) : Token :=
  if w = "extends" then ⟨TokenType.extendsKw, some "extends", ln⟩
  else if is_keyword w then
    if w = "import" then ⟨TokenType.importKw, some "import", ln⟩
    else ⟨TokenType.keyword, some w, ln⟩
  else ⟨TokenType.identifier, some w, ln⟩

/-- One-character operator/punctuation tokens (lines 213–309). -/
def punctToken (c : Char) (ln : Nat) : Option Token :=
  if c = '(' then some ⟨TokenType.lparen, some "(", ln⟩
  else if c = ')' then some ⟨TokenType.rparen, some ")", ln⟩
  else if c = '[' then some ⟨TokenType.lbracket, some "[", ln⟩
  else if c = ']' then some ⟨TokenType.rbracket, some "]", ln⟩
  else if c = '{' then some ⟨TokenType.lbrace, some "\x7b", ln⟩
  else if c = '}' then some ⟨TokenType.rbrace, some "\x7d", ln⟩
  else if c = ':' then some ⟨TokenType.colon, some ":", ln⟩
  else if c = ',' then some ⟨TokenType.comma, some ",", ln⟩
  else if c = ';' then some ⟨TokenType.semicolon, some ";", ln⟩
  else if c = '.' then some ⟨TokenType.dot, some ".", ln⟩
  else if c = '+' then some ⟨TokenType.plus, some "+", ln⟩
  else if c = '-' then some ⟨TokenType.minus, some "-", ln⟩
  else if c = '*' then some ⟨TokenType.star, some "*", ln⟩
  else if c = '/' then some ⟨TokenType.slash, some "/", ln⟩
  else if c = '%' then some ⟨TokenType.percent, some "%", ln⟩
  else if c = '^' then some ⟨TokenType.caret, some "^", ln⟩
  else none

/-- The main tokenizer loop, a direct translation of the `while` loop of
`tokenize` (lines 86–460 of `tokenizer.c`).  The branch order of the source
is preserved: comment handling is tested *before* the `at_line_start`
indentation handling.  The function returns the tokens emitted from the
current position on; at end of input it emits one DEDENT per non-bottom
stack entry and then EOF (lines 462–468).  `fuel` bounds the number of loop
iterations; every iteration consumes input or clears `atLineStart`, so any
fuel of at least twice the input length plus two is enough. -/
def tokLoop : Nat → List Char → Bool → Nat → List Nat → List Token
  | 0, _, _, _, _ => []
  | _ + 1, [], _, ln, stack =>
    List.replicate (stack.length - 1) ⟨TokenType.dedent, none, ln⟩ ++
      [⟨TokenType.eofTok, none, ln⟩]
  | fuel + 1, c :: rest, atLineStart, ln, stack =>
    -- Comment handling (lines 96–131); tested before the line-start logic.
    -- The `source[i+1] == '#' && source[i+2] == '#'` lookahead is the
    -- two-character prefix test.
    if c = '#' then
      if rest.take 2 = ['#', '#'] then
        let p := skipBlockComment (rest.drop 2) ln
        tokLoop fuel p.1 atLineStart p.2 stack
      else tokLoop fuel (dropLineComment (c :: rest)) atLineStart ln stack
    -- Indentation handling (lines 134–194).
    else if atLineStart then
      let sp := countSpaces (c :: rest)
      let r2 := if sp.2.head? = some '\r' then sp.2.tail else sp.2
      if r2.head? = some '\n' then tokLoop fuel r2.tail true (ln + 1) stack
      else if r2.isEmpty then tokLoop fuel [] true ln stack
      else
        let ls := layoutStep sp.1 stack ln
        ls.1 ++ tokLoop fuel r2 false ln ls.2
    -- Whitespace inside a line (lines 197–201).
    else if c = ' ' ∨ c = '\t' ∨ c = '\r' then
      tokLoop fuel rest false ln stack
    -- Newline (lines 204–211).
    else if c = '\n' then
      ⟨TokenType.newline, none, ln⟩ :: tokLoop fuel rest true (ln + 1) stack
    -- Multi-character operators (lines 312–359); `source[i+1]` lookahead.
    else if c = '!' then
      if rest.head? = some '=' then
        ⟨TokenType.neq, some "!=", ln⟩ :: tokLoop fuel rest.tail false ln stack
      else ⟨TokenType.bang, some "!", ln⟩ :: tokLoop fuel rest false ln stack
    else if c = '>' then
      if rest.head? = some '=' then
        ⟨TokenType.gte, some ">=", ln⟩ :: tokLoop fuel rest.tail false ln stack
      else ⟨TokenType.gt, some ">", ln⟩ :: tokLoop fuel rest false ln stack
    else if c = '<' then
      if rest.head? = some '=' then
        ⟨TokenType.lte, some "<=", ln⟩ :: tokLoop fuel rest.tail false ln stack
      else ⟨TokenType.lt, some "<", ln⟩ :: tokLoop fuel rest false ln stack
    else if c = '=' then
      if rest.head? = some '=' then
        ⟨TokenType.eq, some "==", ln⟩ :: tokLoop fuel rest.tail false ln stack
      else ⟨TokenType.assign, some "=", ln⟩ :: tokLoop fuel rest false ln stack
    -- String literals (lines 362–402).
    else if c = '"' then
      let p := scanString rest
      ⟨TokenType.strLit, some (String.mk p.1), ln⟩ :: tokLoop fuel p.2 false ln stack
    -- Number literals (lines 405–424).
    else if c.isDigit then
      let p := scanNumber (c :: rest)
      let t := if p.1.contains '.' then TokenType.floatLit else TokenType.number
      ⟨t, some (String.mk p.1), ln⟩ :: tokLoop fuel p.2 false ln stack
    -- Identifiers and keywords (lines 427–458).
    else if c.isAlpha then
      let p := scanWord (c :: rest)
      wordToken (String.mk p.1) ln :: tokLoop fuel p.2 false ln stack
    else
      match punctToken c ln with
      | some t => t :: tokLoop fuel rest false ln stack
      | none => tokLoop fuel rest false ln stack

/-- `tokenize` of `tokenizer.c`: run the loop on the whole source with the
initial state of lines 78–84 (`line_num = 1`, indentation stack `[0]`,
`at_line_start = 1`). -/
def tokenize (source : String) : List Token :=
  tokLoop (2 * source.length + 4) source.toList true 1 [0]

/-- A token is one of the layout kinds INDENT, DEDENT, NEWLINE. -/
def Token.isLayout (t : Token) : Bool :=
  t.type = TokenType.indent ∨ t.type = TokenType.dedent ∨
    t.type = TokenType.newline

/-! ## AST (`parser.h`) -/

/-- AST node kinds, mirroring the `ASTNodeType` enum of `parser.h`. -/
inductive ASTNodeType where
  | AST_PROGRAM | AST_INT_LITERAL | AST_FLOAT_LITERAL | AST_STRING_LITERAL
  | AST_BOOL_LITERAL | AST_VAR_DECL | AST_ASSIGNMENT | AST_VAR_REF
  | AST_BINARY_OP | AST_UNARY_OP | AST_IF | AST_WHILE | AST_BLOCK
  | AST_FUNC_DEF | AST_FUNC_CALL | AST_RETURN | AST_PRINT | AST_FOR
  | AST_FOREACH | AST_DO_WHILE | AST_SWITCH | AST_CASE | AST_DEFAULT
  | AST_BREAK | AST_CONTINUE | AST_IMPORT | AST_CLASS_DEF | AST_NEW_EXPR
  | AST_FIELD_ACCESS | AST_FIELD_DECL | AST_LIST_LITERAL | AST_INDEX_ACCESS
  | AST_ARRAY_SPECIFIER | AST_HASHMAP_LITERAL
deriving DecidableEq, Repr

/-- An AST node, mirroring `struct ASTNode` of `parser.h`.  The `value`,
`type_name` and `parent_class_name` fields are nullable `char *` in C, hence
`Option String`; a `None` that the interpreter passes to `strcmp`/`strdup`
is undefined behaviour and is modelled as such at the use sites. -/
inductive ASTNode where
  | mk (type : ASTNodeType) (value : Option String) (typeName : Option String)
      (parentClassName : Option String) (children : List ASTNode)
      (args : List String) (lineNum : Nat)

def ASTNode.type : ASTNode → ASTNodeType
  | .mk t _ _ _ _ _ _ => t

def ASTNode.value : ASTNode → Option String
  | .mk _ v _ _ _ _ _ => v

def ASTNode.typeName : ASTNode → Option String
  | .mk _ _ tn _ _ _ _ => tn

def ASTNode.children : ASTNode → List ASTNode
  | .mk _ _ _ _ cs _ _ => cs

def ASTNode.args : ASTNode → List String
  | .mk _ _ _ _ _ as _ => as

def ASTNode.lineNum : ASTNode → Nat
  | .mk _ _ _ _ _ _ ln => ln

/-- `node->children[i]`: the C children array has exactly `children_count`
entries, so an out-of-range access is an out-of-bounds read. -/
def ASTNode.child? (n : ASTNode) (i : Nat) : Option ASTNode :=
  n.children.get? i

/-! ## Values and heap objects (`value.h`) -/

/-- The `ValueType` enum of `value.h`, in declaration order. -/
inductive ValueType where
  | VAL_INT | VAL_FLOAT | VAL_STRING | VAL_BOOL | VAL_VOID | VAL_NATIVE_FN
  | VAL_FUNC | VAL_MODULE | VAL_STRUCT_DEF | VAL_STRUCT_INSTANCE | VAL_LIST
  | VAL_HASHMAP | VAL_CLASS | VAL_INSTANCE | VAL_BOUND_METHOD | VAL_BREAK
  | VAL_CONTINUE
deriving DecidableEq, Repr

/-- A runtime value (`struct Value` of `value.h`).  Heap pointers become
`Nat` indices into the interpreter heap.  `vList` carries an `Option Nat`
because the interpreter really creates list values holding a NULL pointer
(`exec`, `AST_VAR_DECL`, line 1002 of `interpreter.c`).  C `int` is `Int`
(signed overflow is UB in the source); C `float` is abstracted by `Rat`. -/
inductive Value where
  | vInt (i : Int)
  | vFloat (x : Rat)
  | vString (s : String)
  | vBool (b : Bool)
  | vVoid
  | vNativeFn (name : String)
  | vFunc (ref : Nat)
  | vModule (ref : Nat)
  | vStructDef (ref : Nat)
  | vStructInstance (ref : Nat)
  | vList (ref : Option Nat)
  | vHashMap (ref : Nat)
  | vClass (ref : Nat)
  | vInstance (ref : Nat)
  | vBoundMethod (ref : Nat)
  | vBreak
  | vContinue
deriving DecidableEq, Repr

/-- The type tag of a value. -/
def Value.type : Value → ValueType
  | .vInt _ => .VAL_INT
  | .vFloat _ => .VAL_FLOAT
  | .vString _ => .VAL_STRING
  | .vBool _ => .VAL_BOOL
  | .vVoid => .VAL_VOID
  | .vNativeFn _ => .VAL_NATIVE_FN
  | .vFunc _ => .VAL_FUNC
  | .vModule _ => .VAL_MODULE
  | .vStructDef _ => .VAL_STRUCT_DEF
  | .vStructInstance _ => .VAL_STRUCT_INSTANCE
  | .vList _ => .VAL_LIST
  | .vHashMap _ => .VAL_HASHMAP
  | .vClass _ => .VAL_CLASS
  | .vInstance _ => .VAL_INSTANCE
  | .vBoundMethod _ => .VAL_BOUND_METHOD
  | .vBreak => .VAL_BREAK
  | .vContinue => .VAL_CONTINUE

/-- `get_value_type_name` of `interpreter.c` (lines 161–177); note that the
C switch has no case for bound methods, the signal values, or the struct
kinds — they fall to `"unknown"`. -/
def get_value_type_name : ValueType → String
  | .VAL_INT => "int"
  | .VAL_FLOAT => "float"
  | .VAL_STRING => "string"
  | .VAL_BOOL => "bool"
  | .VAL_VOID => "void"
  | .VAL_NATIVE_FN => "native_function"
  | .VAL_FUNC => "function"
  | .VAL_MODULE => "module"
  | .VAL_CLASS => "class"
  | .VAL_INSTANCE => "instance"
  | .VAL_LIST => "list"
  | .VAL_HASHMAP => "hashmap"
  | _ => "unknown"

/-- A heap object.  Each constructor mirrors one GC-managed struct of
`value.h` (the header fields live in the heaps that contain the objects):
environment nodes, lists, hash maps, functions, classes, instances, bound
methods and modules.  `mapObj` models the bucketed chaining table by its
list of entries: `hashmap_set` overwrites in place when the key is present
and prepends a new entry otherwise, exactly as the C does inside a bucket;
only iteration order (unspecified per the spec) is abstracted. -/
inductive Obj where
  | envNode (name : String) (val : Value) (next : Option Nat)
  | listObj (items : List Value) (capacity : Nat) (isFixed : Bool)
  | mapObj (entries : List (String × Value)) (keyType valueType : ValueType)
  | funcObj (name : String) (body : ASTNode) (env : Option Nat)
  | classObj (name : String) (methods : Nat) (fields : List String)
      (parent : Option Nat)
  | instObj (cls : Nat) (fields : Nat)
  | boundMethodObj (receiver : Value) (method : Value)
  | moduleObj (name : String) (members : Nat)

/-! ## Interpreter state -/

/-- The mutable global state of the interpreter: the heap of GC objects,
the global environment head (`global_env`), the method-attachment latch
(`last_defined_class`, line 15 of `interpreter.c`), the three native
registries, and the list of values passed to `print_value` by the print
statement (standing in for stdout). -/
structure InterpState where
  heap : List Obj
  globalEnv : Option Nat
  lastDefinedClass : Option Nat
  stringMethods : Option Nat
  listMethods : Option Nat
  moduleFuncs : Option Nat
  printed : List Value

def InterpState.getObj (s : InterpState) (i : Nat) : Option Obj :=
  s.heap.get? i

def InterpState.setObj (s : InterpState) (i : Nat) (o : Obj) : InterpState :=
  { s with heap := s.heap.set i o }

/-- `allocate_obj`: a fresh object is appended to the heap; its index is
returned.  (The GC threshold check of `gc.c` is not run here: collection
never frees anything reachable from the interpreter roots, so a collection
at an allocation point is invisible to the interpreter semantics; the
collector itself is modelled separately below.) -/
def allocObj (s : InterpState) (o : Obj) : Nat × InterpState :=
  (s.heap.length, { s with heap := s.heap ++ [o] })

/-- Outcome of running a piece of interpreter code.
`err` is a call to `report_error` (which in script mode prints the line and
message and exits); `undef` is undefined behaviour of the C source
(out-of-bounds or uninitialized reads, division by zero); `unmodeled` is
behaviour outside this model (host IO in the natives and `import`, IEEE
special values); `stuck` is fuel exhaustion of the shallow embedding. -/
inductive Res (α : Type) where
  | ok (a : α)
  | err (line : Nat) (msg : String)
  | undef
  | unmodeled
  | stuck

def Res.bind : Res α → (α → Res β) → Res β
  | .ok a, f => f a
  | .err l m, _ => .err l m
  | .undef, _ => .undef
  | .unmodeled, _ => .unmodeled
  | .stuck, _ => .stuck

instance : Monad Res where
  pure := Res.ok
  bind := Res.bind

/-! ## Environments (`env_define`, `env_assign`, `env_get`) -/

/-- `value_copy` (lines 72–87): strings are deep-copied, everything else is
copied bitwise.  Lean strings are immutable values, so the deep copy is
observationally the identity. -/
def value_copy (v : Value) : Value := v

/-- `env_define` (lines 89–106): allocate a fresh binding node at the head
of the chain.  Returns the new head. -/
def env_define (s : InterpState) (envHead : Option Nat) (name : String)
    (v : Value) : Nat × InterpState :=
  allocObj s (Obj.envNode name (value_copy v) envHead)

/-- Walk an environment chain looking for a name (the loop of `env_get`,
lines 148–151).  Every chain the interpreter builds has each node's `next`
pointing at a strictly older (smaller-index) node — `env_define` links the
fresh node to the previous head, and the one retroactive link
(`tail->next = func->env` in the call paths) points a fresh argument node
at a pre-existing chain — so the walk descends in the index and a start
fuel of `i + 1` never runs out (the guard `j < i` makes this a theorem,
not an assumption; a heap violating the invariant is never built). -/
def envFindAt (s : InterpState) : Nat → Nat → String → Option Value
  | 0, _, _ => none
  | fuel + 1, i, name =>
    match s.getObj i with
    | some (Obj.envNode n v next) =>
      if n = name then some v
      else
        match next with
        | none => none
        | some j => if j < i then envFindAt s fuel j name else none
    | _ => none

def envChainFind (s : InterpState) (head : Option Nat) (name : String) :
    Option Value :=
  match head with
  | none => none
  | some i => envFindAt s (i + 1) i name

/-- `env_get` (lines 137–159): search the local chain, then the global
chain, else report an undefined-variable error. -/
def env_get (s : InterpState) (envHead : Option Nat) (name : String)
    (line : Nat) : Res Value :=
  match envChainFind s envHead name with
  | some v => .ok v
  | none =>
    match envChainFind s s.globalEnv name with
    | some v => .ok v
    | none => .err line ("Undefined variable '" ++ name ++ "'.")

/-- The in-place update walk of `env_assign` (lines 119–125), fueled like
`envFindAt`. -/
def envAssignAt (s : InterpState) : Nat → Nat → String → Value →
    Option InterpState
  | 0, _, _, _ => none
  | fuel + 1, i, name, v =>
    match s.getObj i with
    | some (Obj.envNode n _ next) =>
      if n = name then some (s.setObj i (Obj.envNode n (value_copy v) next))
      else
        match next with
        | none => none
        | some j => if j < i then envAssignAt s fuel j name v else none
    | _ => none

def envChainAssign (s : InterpState) (head : Option Nat) (name : String)
    (v : Value) : Option InterpState :=
  match head with
  | none => none
  | some i => envAssignAt s (i + 1) i name v

/-- `env_assign` (lines 108–135): overwrite in the local chain, else in the
global chain, else report an undefined-variable error. -/
def env_assign (s : InterpState) (envHead : Option Nat) (name : String)
    (v : Value) (line : Nat) : Res InterpState :=
  match envChainAssign s envHead name v with
  | some s' => .ok s'
  | none =>
    match envChainAssign s s.globalEnv name v with
    | some s' => .ok s'
    | none => .err line ("Undefined variable '" ++ name ++ "'.")

/-- The tail-walk-and-relink of the call paths (`eval`, lines 711–714 and
877–881 and 894–898): walk `next` links to the last node of a freshly built
argument chain, and point its `next` at the function's captured
environment. -/
def envSetTailNextF (s : InterpState) : Nat → Nat → Option Nat →
    Res InterpState
  | 0, _, _ => .undef
  | fuel + 1, i, closure =>
    match s.getObj i with
    | some (Obj.envNode n v next) =>
      match next with
      | none => .ok (s.setObj i (Obj.envNode n v closure))
      | some j => if j < i then envSetTailNextF s fuel j closure else .undef
    | _ => .undef

def envSetTailNext (s : InterpState) (i : Nat) (closure : Option Nat) :
    Res InterpState :=
  envSetTailNextF s (i + 1) i closure

/-- The parameter-binding loop of the call paths: bind each passed argument
value to the next parameter name with `env_define`.  The C loops over the
*passed* argument count indexing `func->body->args[i]`, so a call with more
arguments than parameters reads out of bounds. -/
def bindParams (s : InterpState) (head : Option Nat) :
    List String → List Value → Res (Option Nat × InterpState)
  | _, [] => .ok (head, s)
  | [], _ :: _ => .undef
  | n :: ns, v :: vs =>
    let (i, s') := env_define s head n v
    bindParams s' (some i) ns vs

/-! ## Hash maps (`hashmap_create`, `hashmap_set`, `hashmap_get`) -/

/-- `hashmap_create` (lines 564–572). -/
def hashmap_create (s : InterpState) (kt vt : ValueType) :
    Nat × InterpState :=
  allocObj s (Obj.mapObj [] kt vt)

/-- Entry update: overwrite in place when the key exists, else prepend a
fresh entry (the C prepends to the bucket's chain, lines 586–600). -/
def mapEntriesSet (entries : List (String × Value)) (key : String)
    (v : Value) : List (String × Value) :=
  if entries.any (fun e => e.1 = key) then
    entries.map (fun e => if e.1 = key then (key, v) else e)
  else (key, v) :: entries

def mapEntriesGet (entries : List (String × Value)) (key : String) : Value :=
  match entries.find? (fun e => e.1 = key) with
  | some e => e.2
  | none => Value.vVoid

/-- `hashmap_set` (lines 574–601): a map with a non-void declared value
type rejects values of a different type with a type-mismatch error at the
given line, before touching the entries; otherwise the entry is written. -/
def hashmap_set (s : InterpState) (mapRef : Nat) (key : String) (v : Value)
    (line : Nat) : Res InterpState :=
  match s.getObj mapRef with
  | some (Obj.mapObj entries kt vt) =>
    if vt ≠ ValueType.VAL_VOID ∧ v.type ≠ vt then
      .err line ("Type mismatch: Cannot set value of type '" ++
        get_value_type_name v.type ++ "' in a hashmap expecting type '" ++
        get_value_type_name vt ++ "'.")
    else
      .ok (s.setObj mapRef (Obj.mapObj (mapEntriesSet entries key v) kt vt))
  | _ => (.undef)

/-- `hashmap_get` (line 603): absent keys give void. -/
def hashmap_get (s : InterpState) (mapRef : Nat) (key : String) : Res Value :=
  match s.getObj mapRef with
  | some (Obj.mapObj entries _ _) => .ok (mapEntriesGet entries key)
  | _ => (.undef)

/-- `list_add` (line 237): growth doubles the capacity (4 when zero); a
full fixed-size list reports an error (line number 0) without appending. -/
def list_add (s : InterpState) (listRef : Nat) (item : Value) :
    Res InterpState :=
  match s.getObj listRef with
  | some (Obj.listObj items cap fixed) =>
    if items.length ≥ cap then
      if fixed then .err 0 "Cannot append to a fixed-size list."
      else
        let cap' := if cap = 0 then 4 else cap * 2
        .ok (s.setObj listRef (Obj.listObj (items ++ [item]) cap' fixed))
    else .ok (s.setObj listRef (Obj.listObj (items ++ [item]) cap fixed))
  | _ => (.undef)

/-! ## Primitive conversions -/

/-- `get_type_from_name` (lines 605–611). -/
def get_type_from_name (t : String) : ValueType :=
  if t = "int" then .VAL_INT
  else if t = "string" then .VAL_STRING
  else if t = "float" then .VAL_FLOAT
  else if t = "bool" then .VAL_BOOL
  else .VAL_VOID

def digitsToInt (cs : List Char) : Int :=
  (cs.takeWhile Char.isDigit).foldl (fun a c => a * 10 + (c.toNat - 48 : Int)) 0

/-- C `atoi` on the token text: optional leading whitespace and sign, then
a digit run (tokenizer literals are plain digit runs).  Overflow is UB in C
and unbounded here. -/
def atoiC (str : String) : Int :=
  let cs := str.toList.dropWhile (fun c =>
    c = ' ' ∨ c = '\t' ∨ c = '\n' ∨ c = '\r')
  match cs with
  | '-' :: rest => - digitsToInt rest
  | '+' :: rest => digitsToInt rest
  | _ => digitsToInt cs

/-- C `atof` on the token text: digits, optionally a dot and more digits
(tokenizer float literals have that shape; a second dot stops the parse,
e.g. `1.2.3` reads as `1.2`).  The exact rational is used where C rounds to
double. -/
def atofRat (str : String) : Rat :=
  let cs := str.toList.dropWhile (fun c =>
    c = ' ' ∨ c = '\t' ∨ c = '\n' ∨ c = '\r')
  let (sign, cs) : Rat × List Char :=
    match cs with
    | '-' :: rest => (-1, rest)
    | '+' :: rest => (1, rest)
    | _ => (1, cs)
  let intPart := cs.takeWhile Char.isDigit
  let rest := cs.dropWhile Char.isDigit
  let frac : Rat :=
    match rest with
    | '.' :: fs =>
      let fracDigits := fs.takeWhile Char.isDigit
      (digitsToInt fracDigits : Rat) / ((10 : Rat) ^ fracDigits.length)
    | _ => 0
  sign * ((digitsToInt intPart : Rat) + frac)

/-- The `(int)pow(l, r)` of the int/int `^` branch (line 808).  For a
non-negative exponent `pow` is exact on small magnitudes and truncation is
the identity, so the result is `l ^ r`; a negative exponent makes `pow`
yield a magnitude below one (truncating to 0) except on bases `±1`;
`pow(0, negative)` is infinite and converting it to `int` is UB.  (Double
rounding on results of magnitude ≥ 2^53 is abstracted.) -/
def cPowInt (a b : Int) : Option Int :=
  if 0 ≤ b then some (a ^ b.toNat)
  else if a = 1 then some 1
  else if a = -1 then some (if b % 2 = 0 then 1 else -1)
  else if a = 0 then none
  else some 0

/-- `pow` on doubles, on the rational abstraction: defined for integer
exponents (except `0^negative`); a fractional exponent leaves the rationals
and is out of the model. -/
def ratPow (a b : Rat) : Option Rat :=
  if b.den = 1 then
    if 0 ≤ b.num then some (a ^ b.num.toNat)
    else if a = 0 then none
    else some (a ^ b.num)
  else none

/-- Reading the `int_val` union member of a value, as the condition checks
of `if`/`while`/`for`/`do` and the array-size read do.  `VAL_INT` and
`VAL_BOOL` store `int_val`; every void value the interpreter creates comes
from a zero-filling compound literal `(Value){VAL_VOID}`, so its `int_val`
reads 0; reading the member of a float or pointer value reinterprets
unspecified bits. -/
def readIntVal : Value → Option Int
  | .vInt i => some i
  | .vBool b => some (if b then 1 else 0)
  | .vVoid => some 0
  | _ => none

/-- A C truth test `v.int_val` as used by the control-flow statements. -/
def condIntVal (v : Value) : Res Bool :=
  match readIntVal v with
  | some i => .ok (i ≠ 0)
  | none => (.undef)

/-- The structural match test of the switch statement (lines 1198–1200):
same type tag, and equal payloads for int or string; every other type never
matches. -/
def switchMatch (a b : Value) : Bool :=
  decide (a.type = b.type) &&
    (match a, b with
     | .vInt x, .vInt y => decide (x = y)
     | .vString x, .vString y => decide (x = y)
     | _, _ => false)

/-- `sscanf(type_name, "map<%31[^,],%31[^>]>", ...)` of the map declaration
(line 1029): the characters after `map<` up to the first comma, then the
characters up to the first `>`.  An empty key or value field makes the
corresponding conversion fail, leaving the C buffer uninitialized. -/
def parseMapGenerics (tn : String) : Option (String × String) :=
  let cs := tn.toList.drop 4  -- past "map<"
  let key := cs.takeWhile (fun c => c ≠ ',')
  let rest := cs.dropWhile (fun c => c ≠ ',')
  match rest with
  | ',' :: rest2 =>
    let val := rest2.takeWhile (fun c => c ≠ '>')
    if key = [] ∨ val = [] then none
    else some (String.mk key, String.mk val)
  | _ => none

/-- The binary-operator evaluation (lines 792–845 of `interpreter.c`), on
already-evaluated operands.  `res` starts as a (zero-filled) void value and
keeps that value whenever no branch assigns it — e.g. `%` on floats, `and`
on ints, or any operator on a mismatched type pair.  Int `/` and `%` use
the C truncated division with no zero guard: a zero right operand is UB. -/
def evalBinOp (op : String) (left right : Value) : Res Value :=
  match left, right with
  | .vInt a, .vInt b =>
    if op = "+" then .ok (.vInt (a + b))
    else if op = "-" then .ok (.vInt (a - b))
    else if op = "*" then .ok (.vInt (a * b))
    else if op = "/" then
      if b = 0 then .undef else .ok (.vInt (Int.tdiv a b))
    else if op = "%" then
      if b = 0 then .undef else .ok (.vInt (Int.tmod a b))
    else if op = "^" then
      match cPowInt a b with
      | some r => .ok (.vInt r)
      | none => .undef
    else if op = "<" then .ok (.vBool (a < b))
    else if op = ">" then .ok (.vBool (a > b))
    else if op = "<=" then .ok (.vBool (a ≤ b))
    else if op = ">=" then .ok (.vBool (a ≥ b))
    else if op = "==" then .ok (.vBool (a = b))
    else if op = "!=" then .ok (.vBool (a ≠ b))
    else .ok .vVoid
  | .vInt _, .vFloat _ | .vFloat _, .vInt _ | .vFloat _, .vFloat _ =>
    let ld : Rat := match left with | .vInt a => (a : Rat) | .vFloat x => x | _ => 0
    let rd : Rat := match right with | .vInt a => (a : Rat) | .vFloat x => x | _ => 0
    if op = "+" then .ok (.vFloat (ld + rd))
    else if op = "-" then .ok (.vFloat (ld - rd))
    else if op = "*" then .ok (.vFloat (ld * rd))
    else if op = "/" then
      -- IEEE division by zero yields an infinity, which the rational
      -- abstraction cannot represent.
      if rd = 0 then .unmodeled else .ok (.vFloat (ld / rd))
    else if op = "^" then
      match ratPow ld rd with
      | some r => .ok (.vFloat r)
      | none => .unmodeled
    else if op = "<" then .ok (.vBool (ld < rd))
    else if op = ">" then .ok (.vBool (ld > rd))
    else if op = "<=" then .ok (.vBool (ld ≤ rd))
    else if op = ">=" then .ok (.vBool (ld ≥ rd))
    else if op = "==" then .ok (.vBool (ld = rd))
    else if op = "!=" then .ok (.vBool (ld ≠ rd))
    else .ok .vVoid
  | .vString a, .vString b =>
    if op = "+" then .ok (.vString (a ++ b))
    else if op = "==" then .ok (.vBool (a = b))
    else if op = "!=" then .ok (.vBool (a ≠ b))
    else .ok .vVoid
  | .vBool a, .vBool b =>
    if op = "and" then .ok (.vBool (a && b))
    else if op = "or" then .ok (.vBool (a || b))
    else .ok .vVoid
  | _, _ => .ok .vVoid

/-- The field-initialisation loop of instantiation (lines 687–689): set
every declared field of the class to void in the fresh field map. -/
def initInstanceFields (s : InterpState) (fieldsRef : Nat) (line : Nat) :
    List String → Res InterpState
  | [] => .ok s
  | n :: ns =>
    Res.bind (hashmap_set s fieldsRef n .vVoid line) fun s' =>
    initInstanceFields s' fieldsRef line ns

/-! ## The evaluator (`eval`, `exec`, `exec_block` of `interpreter.c`)

The mutually recursive evaluation nest of `interpreter.c` is embedded in
open-recursion style: each C function becomes a non-recursive Lean
function parametrised by a `step` oracle standing for the recursive
entry points, and a single fuel-indexed driver `interpRun` ties the knot.
Loops that the C code expresses with `for`/`while` *inside one call* (the
argument loops, the statement loop of a block, the case walks of a
switch) are structural recursions over their list argument; every
re-entry into `eval`/`exec` and every new loop iteration goes through the
oracle and therefore consumes one unit of fuel.  `stuck` only reports
insufficient fuel, never a property of the program. -/

/-- A request to the evaluation nest: one constructor per fuel-consuming
entry point. -/
inductive IReq where
  | eval (node : ASTNode) (envH : Option Nat)
  | exec (node : ASTNode) (envH : Option Nat)
  | whileLoop (condE body : ASTNode) (envH : Option Nat)
  | foreachLoop (varName : String) (body : ASTNode) (lref i : Nat)
      (envH : Option Nat)
  | forLoop (condE incr body : ASTNode) (forEnv : Option Nat)
  | doWhileLoop (body condE : ASTNode) (envH : Option Nat)

/-- The result of a request: `eval` and the loops return a value, `exec`
returns the signalling value and the updated environment head. -/
inductive IOut where
  | val (v : Value)
  | stmt (v : Value) (envH : Option Nat)

/-- The type of the recursion oracle. -/
def Step : Type :=
  IReq → InterpState → Res (IOut × InterpState)

/-- Read a request result as a value (`eval` and the loop entry points
always answer with `IOut.val`). -/
def asVal (r : Res (IOut × InterpState)) : Res (Value × InterpState) :=
  Res.bind r fun (o, s) =>
  match o with
  | .val v => .ok (v, s)
  | _ => (.undef)

/-- Read a request result as a statement result (`exec` always answers
with `IOut.stmt`). -/
def asStmt (r : Res (IOut × InterpState)) :
    Res (Value × Option Nat × InterpState) :=
  Res.bind r fun (o, s) =>
  match o with
  | .stmt v e => .ok (v, e, s)
  | _ => (.undef)

/-- Recursive entry into `eval`. -/
def evalV (step : Step) (node : ASTNode) (envH : Option Nat)
    (s : InterpState) : Res (Value × InterpState) :=
  asVal (step (.eval node envH) s)

/-- Recursive entry into `exec`. -/
def execV (step : Step) (node : ASTNode) (envH : Option Nat)
    (s : InterpState) : Res (Value × Option Nat × InterpState) :=
  asStmt (step (.exec node envH) s)

/-- The next iteration of the while loop. -/
def whileV (step : Step) (condE body : ASTNode) (envH : Option Nat)
    (s : InterpState) : Res (Value × InterpState) :=
  asVal (step (.whileLoop condE body envH) s)

/-- The next iteration of the foreach loop. -/
def foreachV (step : Step) (varName : String) (body : ASTNode) (lref i : Nat)
    (envH : Option Nat) (s : InterpState) : Res (Value × InterpState) :=
  asVal (step (.foreachLoop varName body lref i envH) s)

/-- The next iteration of the C-style for loop. -/
def forV (step : Step) (condE incr body : ASTNode) (forEnv : Option Nat)
    (s : InterpState) : Res (Value × InterpState) :=
  asVal (step (.forLoop condE incr body forEnv) s)

/-- The next iteration of the do-while loop. -/
def doWhileV (step : Step) (body condE : ASTNode) (envH : Option Nat)
    (s : InterpState) : Res (Value × InterpState) :=
  asVal (step (.doWhileLoop body condE envH) s)

/-- Left-to-right evaluation of an expression list (the argument loops of
the call paths and the print statement's operand evaluation). -/
def evalArgsF (step : Step) : List ASTNode → Option Nat → InterpState →
    Res (List Value × InterpState)
  | [], _, s => .ok ([], s)
  | e :: rest, envH, s =>
    Res.bind (evalV step e envH s) fun (v, s1) =>
    Res.bind (evalArgsF step rest envH s1) fun (vs, s2) =>
    .ok (v :: vs, s2)


/-- The element loop of the list literal (line 636): evaluate and
`list_add` each element. -/
def evalListItemsF (step : Step) : List ASTNode → Nat → Option Nat →
    InterpState → Res InterpState
  | [], _, _, s => .ok s
  | e :: rest, lref, envH, s =>
    Res.bind (evalV step e envH s) fun (v, s1) =>
    Res.bind (list_add s1 lref v) fun s2 =>
    evalListItemsF step rest lref envH s2


/-- The pair loop of the hash-map literal (lines 641–646): evaluate key and
value, require a string key, and insert at the literal's line.  A trailing
key with no value expression reads `children[i+1]` out of bounds. -/
def evalMapPairsF (step : Step) : List ASTNode → Nat → Nat → Option Nat →
    InterpState → Res InterpState
  | [], _, _, _, s => .ok s
  | [_], _, _, _, _ => .undef
  | k :: v :: rest, mref, line, envH, s =>
    Res.bind (evalV step k envH s) fun (kv, s1) =>
    Res.bind (evalV step v envH s1) fun (vv, s2) =>
    match kv with
    | .vString ks =>
      Res.bind (hashmap_set s2 mref ks vv line) fun s3 =>
      evalMapPairsF step rest mref line envH s3
    | _ => .err k.lineNum "Hashmap keys must be strings."


/-- The pair loop of a typed map declaration's initializer (lines
1040–1044): unlike the literal evaluation above, the key's `str_val` is
read without a type check (a non-string key is a garbage pointer read). -/
def evalDeclMapPairsF (step : Step) : List ASTNode → Nat → Nat →
    Option Nat → InterpState → Res InterpState
  | [], _, _, _, s => .ok s
  | [_], _, _, _, _ => .undef
  | k :: v :: rest, mref, line, envH, s =>
    Res.bind (evalV step k envH s) fun (kv, s1) =>
    Res.bind (evalV step v envH s1) fun (vv, s2) =>
    match kv with
    | .vString ks =>
      Res.bind (hashmap_set s2 mref ks vv line) fun s3 =>
      evalDeclMapPairsF step rest mref line envH s3
    | _ => (.undef)


/-- The print loop (lines 990–994): evaluate each operand and emit it. -/
def execPrintArgsF (step : Step) : List ASTNode → Option Nat → InterpState →
    Res InterpState
  | [], _, s => .ok s
  | e :: rest, envH, s =>
    Res.bind (evalV step e envH s) fun (v, s1) =>
    execPrintArgsF step rest envH { s1 with printed := s1.printed ++ [v] }


/-- The statement loop of `exec_block`, threading the block-local
environment head. -/
def execStmtsF (step : Step) : List ASTNode → Option Nat → InterpState →
    Res (Value × InterpState)
  | [], _, s => .ok (.vVoid, s)
  | st :: rest, envH, s =>
    Res.bind (execV step st envH s) fun (v, envH', s1) =>
    if v.type ≠ ValueType.VAL_VOID then .ok (v, s1)
    else execStmtsF step rest envH' s1


/-- `exec_block` (lines 527–560): run the child statements against a local
copy of the environment head; the first non-void result stops the block and
is returned; the caller's head is restored (hence not returned). -/
def execBlockF (step : Step) (node : ASTNode) (envH : Option Nat)
    (s : InterpState) : Res (Value × InterpState) :=
  execStmtsF step node.children envH s


/-- The user-function branch of `eval`'s call case (lines 888–903): bind
the passed arguments to the parameter names in a fresh chain, link the
chain's tail to the function's captured environment, and execute the body
block there. -/
def callUserFuncF (step : Step) (fref : Nat) (argv : List Value)
    (s : InterpState) : Res (Value × InterpState) :=
    match s.getObj fref with
    | some (.funcObj _ body fenv) =>
      Res.bind (bindParams s none body.args argv) fun (head, s1) =>
      match head with
      | none =>
        match body.child? 0 with
        | some blk => execBlockF step blk fenv s1
        | none => .undef
      | some h =>
        Res.bind (envSetTailNext s1 h fenv) fun s2 =>
        match body.child? 0 with
        | some blk => execBlockF step blk (some h) s2
        | none => .undef
    | _ => (.undef)


/-- The bound-method user-function branch (lines 870–886): bind `this` to
the receiver, then the remaining arguments, link to the method's captured
environment, and execute the body block. -/
def callBoundUserFuncF (step : Step) (recv : Value) (fref : Nat)
    (argv : List Value) (s : InterpState) : Res (Value × InterpState) :=
    match s.getObj fref with
    | some (.funcObj _ body fenv) =>
      let (ti, s1) := env_define s none "this" recv
      Res.bind (bindParams s1 (some ti) body.args argv) fun (head, s2) =>
      match head with
      | some h =>
        Res.bind (envSetTailNext s2 h fenv) fun s3 =>
        match body.child? 0 with
        | some blk => execBlockF step blk (some h) s3
        | none => .undef
      | none => .undef
    | _ => (.undef)


/-- The first walk of the switch statement (lines 1193–1217), carrying the
`matched` flag.  Returns `some r` when the walk returns early (a Break body
gives `some void`, any other non-void body result gives `some r`),
otherwise `none` and the final `matched` flag. -/
def execSwitchCasesF (step : Step) : Value → List ASTNode → Bool →
    Option Nat → InterpState → Res (Option Value × Bool × InterpState)
  | _, [], matched, _, s => .ok (none, matched, s)
  | v, c :: rest, matched, envH, s =>
    if c.type = ASTNodeType.AST_CASE then
      match c.child? 0 with
      | none => .undef
      | some ce =>
        Res.bind (evalV step ce envH s) fun (cv, s1) =>
        if matched || switchMatch v cv then
          match c.child? 1 with
          | some body =>
            Res.bind (execBlockF step body envH s1) fun (r, s2) =>
            if r.type = ValueType.VAL_BREAK then .ok (some .vVoid, true, s2)
            else if r.type ≠ ValueType.VAL_VOID then .ok (some r, true, s2)
            else execSwitchCasesF step v rest true envH s2
          | none => execSwitchCasesF step v rest true envH s1
        else execSwitchCasesF step v rest matched envH s1
    else if c.type = ASTNodeType.AST_DEFAULT then
      if matched then
        match c.child? 0 with
        | some body =>
          Res.bind (execBlockF step body envH s) fun (r, s1) =>
          if r.type = ValueType.VAL_BREAK then .ok (some .vVoid, true, s1)
          else if r.type ≠ ValueType.VAL_VOID then .ok (some r, true, s1)
          else execSwitchCasesF step v rest true envH s1
        | none => execSwitchCasesF step v rest matched envH s
      else execSwitchCasesF step v rest matched envH s
    else execSwitchCasesF step v rest matched envH s


/-- The no-match default walk of the switch statement (lines 1219–1230):
run every default body in order, with the same Break/propagation rules. -/
def execDefaultsF (step : Step) : List ASTNode → Option Nat → InterpState →
    Res (Option Value × InterpState)
  | [], _, s => .ok (none, s)
  | c :: rest, envH, s =>
    if c.type = ASTNodeType.AST_DEFAULT then
      match c.child? 0 with
      | some body =>
        Res.bind (execBlockF step body envH s) fun (r, s1) =>
        if r.type = ValueType.VAL_BREAK then .ok (some .vVoid, s1)
        else if r.type ≠ ValueType.VAL_VOID then .ok (some r, s1)
        else execDefaultsF step rest envH s1
      | none => execDefaultsF step rest envH s
    else execDefaultsF step rest envH s


/-- `eval` (lines 613–918): expression evaluation.  Returns the value and
the updated state. -/
def evalF (step : Step) (node : ASTNode) (envH : Option Nat)
    (s : InterpState) : Res (Value × InterpState) :=
    match node.type with
    | .AST_INT_LITERAL =>
      match node.value with
      | some v => .ok (.vInt (atoiC v), s)
      | none => .undef
    | .AST_FLOAT_LITERAL =>
      match node.value with
      | some v => .ok (.vFloat (atofRat v), s)
      | none => .undef
    | .AST_STRING_LITERAL =>
      match node.value with
      | some v => .ok (.vString v, s)
      | none => .undef
    | .AST_BOOL_LITERAL =>
      match node.value with
      | some v => .ok (.vBool (v = "true"), s)
      | none => .undef
    | .AST_LIST_LITERAL =>
      -- lines 630–638: allocate with capacity = children_count, then append
      -- each evaluated element.
      let (lref, s1) := allocObj s (.listObj [] node.children.length false)
      Res.bind (evalListItemsF step node.children lref envH s1) fun s2 =>
      .ok (.vList (some lref), s2)
    | .AST_HASHMAP_LITERAL =>
      -- lines 639–648.
      let (mref, s1) := hashmap_create s .VAL_STRING .VAL_VOID
      Res.bind (evalMapPairsF step node.children mref node.lineNum envH s1)
        fun s2 => .ok (.vHashMap mref, s2)
    | .AST_VAR_REF =>
      match node.value with
      | some name =>
        Res.bind (env_get s envH name node.lineNum) fun v =>
        .ok (value_copy v, s)
      | none => .undef
    | .AST_UNARY_OP =>
      -- lines 650–674; an operator other than "-"/"!" leaves the result
      -- uninitialized.
      match node.value, node.child? 0 with
      | some op, some operandE =>
        Res.bind (evalV step operandE envH s) fun (operand, s1) =>
        if op = "-" then
          match operand with
          | .vInt i => .ok (.vInt (-i), s1)
          | .vFloat x => .ok (.vFloat (-x), s1)
          | _ => .err node.lineNum "Operand for unary '-' must be a number."
        else if op = "!" then
          match operand with
          | .vBool b => .ok (.vBool (!b), s1)
          | _ => .err node.lineNum "Operand for '!' must be a boolean."
        else .undef
      | _, _ => .undef
    | .AST_NEW_EXPR =>
      -- lines 675–723.
      match node.child? 0 with
      | none => .undef
      | some callNode =>
        match callNode.child? 0 with
        | none => .undef
        | some classExpr =>
          Res.bind (evalV step classExpr envH s) fun (cv, s1) =>
          match cv with
          | .vClass cref =>
            match s1.getObj cref with
            | some (.classObj _ methodsRef fieldNames _) =>
              let (instId, s2) := allocObj s1 (.instObj cref 0)
              let (fid, s3) := hashmap_create s2 .VAL_STRING .VAL_VOID
              let s4 := s3.setObj instId (.instObj cref fid)
              Res.bind (initInstanceFields s4 fid node.lineNum fieldNames)
                fun s5 =>
              let instVal := Value.vInstance instId
              Res.bind (hashmap_get s5 methodsRef "init") fun initV =>
              if initV.type ≠ ValueType.VAL_VOID then
                match initV with
                | .vFunc iref =>
                  Res.bind (evalArgsF step (callNode.children.drop 1) envH s5)
                    fun (argv, s6) =>
                  match s6.getObj iref with
                  | some (.funcObj _ ibody ienv) =>
                    let (ti, s7) := env_define s6 none "this" instVal
                    Res.bind (bindParams s7 (some ti) ibody.args argv)
                      fun (head, s8) =>
                    match head with
                    | some h =>
                      Res.bind (envSetTailNext s8 h ienv) fun s9 =>
                      match ibody.child? 0 with
                      | some blk =>
                        -- line 719: the init result is discarded.
                        Res.bind (execBlockF step blk (some h) s9) fun (_, s10) =>
                        .ok (instVal, s10)
                      | none => .undef
                    | none => .undef
                  | _ => .undef
                | _ => .undef
              else .ok (instVal, s5)
            | _ => .undef
          | _ => .err node.lineNum "Cannot instantiate non-class type."
    | .AST_FIELD_ACCESS =>
      -- lines 724–776.
      match node.child? 0, node.value with
      | some objExpr, some fname =>
        Res.bind (evalV step objExpr envH s) fun (object, s1) =>
        match object with
        | .vInstance iref =>
          match s1.getObj iref with
          | some (.instObj cref fieldsRef) =>
            Res.bind (hashmap_get s1 fieldsRef fname) fun field =>
            if field.type ≠ ValueType.VAL_VOID then .ok (field, s1)
            else
              match s1.getObj cref with
              | some (.classObj _ methodsRef _ _) =>
                Res.bind (hashmap_get s1 methodsRef fname) fun mv =>
                if mv.type ≠ ValueType.VAL_VOID then
                  let (bid, s2) := allocObj s1 (.boundMethodObj object mv)
                  .ok (.vBoundMethod bid, s2)
                else
                  .err node.lineNum ("Value of type '" ++
                    get_value_type_name object.type ++
                    "' has no field or method named '" ++ fname ++ "'.")
              | _ => .undef
          | _ => .undef
        | .vModule mref =>
          match s1.getObj mref with
          | some (.moduleObj _ membersRef) =>
            Res.bind (hashmap_get s1 membersRef fname) fun v => .ok (v, s1)
          | _ => .undef
        | .vString _ =>
          match s1.stringMethods with
          | some reg =>
            Res.bind (hashmap_get s1 reg fname) fun mv =>
            if mv.type ≠ ValueType.VAL_VOID then
              let (bid, s2) := allocObj s1 (.boundMethodObj object mv)
              .ok (.vBoundMethod bid, s2)
            else
              .err node.lineNum ("Value of type '" ++
                get_value_type_name object.type ++
                "' has no field or method named '" ++ fname ++ "'.")
          | none => .undef
        | .vList _ =>
          match s1.listMethods with
          | some reg =>
            Res.bind (hashmap_get s1 reg fname) fun mv =>
            if mv.type ≠ ValueType.VAL_VOID then
              let (bid, s2) := allocObj s1 (.boundMethodObj object mv)
              .ok (.vBoundMethod bid, s2)
            else
              .err node.lineNum ("Value of type '" ++
                get_value_type_name object.type ++
                "' has no field or method named '" ++ fname ++ "'.")
          | none => .undef
        | _ =>
          .err node.lineNum ("Value of type '" ++
            get_value_type_name object.type ++
            "' has no field or method named '" ++ fname ++ "'.")
      | _, _ => .undef
    | .AST_INDEX_ACCESS =>
      -- lines 777–791.
      match node.child? 0, node.child? 1 with
      | some collE, some idxE =>
        Res.bind (evalV step collE envH s) fun (coll, s1) =>
        Res.bind (evalV step idxE envH s1) fun (idx, s2) =>
        match coll with
        | .vList ref =>
          match idx with
          | .vInt i =>
            match ref with
            | none => .undef
            | some lref =>
              match s2.getObj lref with
              | some (.listObj items _ _) =>
                if i < 0 ∨ (items.length : Int) ≤ i then
                  .err node.lineNum "Index out of bounds."
                else
                  match items.get? i.toNat with
                  | some v => .ok (v, s2)
                  | none => .undef
              | _ => .undef
          | _ => .err node.lineNum "List index must be an integer."
        | .vHashMap mref =>
          match idx with
          | .vString k =>
            Res.bind (hashmap_get s2 mref k) fun v => .ok (v, s2)
          | _ => .err node.lineNum "Hashmap index must be a string."
        | _ => .err node.lineNum "Not an indexable type."
      | _, _ => .undef
    | .AST_BINARY_OP =>
      match node.value, node.child? 0, node.child? 1 with
      | some op, some le, some re =>
        Res.bind (evalV step le envH s) fun (l, s1) =>
        Res.bind (evalV step re envH s1) fun (r, s2) =>
        Res.bind (evalBinOp op l r) fun v => .ok (v, s2)
      | _, _, _ => .undef
    | .AST_FUNC_CALL =>
      -- lines 847–911.
      match node.child? 0 with
      | none => .undef
      | some calleeE =>
        Res.bind (evalV step calleeE envH s) fun (callee, s1) =>
        Res.bind (evalArgsF step (node.children.drop 1) envH s1)
          fun (argRest, s2) =>
        match callee with
        | .vBoundMethod bref =>
          match s2.getObj bref with
          | some (.boundMethodObj recv m) =>
            match m with
            | .vNativeFn _ => .unmodeled  -- host natives are outside the model
            | .vFunc fref => callBoundUserFuncF step recv fref argRest s2
            | _ => (.undef)  -- reading the .func member of a non-function
          | _ => .undef
        | .vFunc fref => callUserFuncF step fref argRest s2
        | .vNativeFn _ => .unmodeled
        | _ => .err node.lineNum "Expression is not callable."
    | _ => .ok (.vVoid, s)  -- eval's default arm (lines 912–914)


  /-- The non-array branches of the variable declaration (lines 1027–1050):
  a `map<k,v>` type name builds a typed hash map (evaluating an optional
  literal initializer into it), anything else binds the evaluated
  initializer (or void). -/
def execVarDeclTailF (step : Step) (node : ASTNode) (name : String)
    (envH : Option Nat) (s : InterpState) :
    Res (Value × Option Nat × InterpState) :=
    match node.typeName with
    | none => (.undef)  -- strncmp on a NULL type_name
    | some tn =>
      if tn.startsWith "map<" then
        match parseMapGenerics tn with
        | none => (.undef)  -- failed sscanf leaves the buffers uninitialized
        | some (ktn, vtn) =>
          let kt := get_type_from_name ktn
          let vt := get_type_from_name vtn
          let (mref, s1) := hashmap_create s kt vt
          Res.bind
            (match node.child? 0 with
             | some lit => evalDeclMapPairsF step lit.children mref lit.lineNum envH s1
             | none => .ok s1) fun s2 =>
          let (i, s3) := env_define s2 envH name (.vHashMap mref)
          .ok (.vVoid, some i, s3)
      else
        match node.child? 0 with
        | some e =>
          Res.bind (evalV step e envH s) fun (v, s1) =>
          let (i, s2) := env_define s1 envH name v
          .ok (.vVoid, some i, s2)
        | none =>
          let (i, s1) := env_define s envH name .vVoid
          .ok (.vVoid, some i, s1)


/-- The while loop (lines 1102–1109): test, run the body, absorb Break and
Continue, propagate any other non-void result. -/
def execWhileF (step : Step) (condE body : ASTNode) (envH : Option Nat)
    (s : InterpState) : Res (Value × InterpState) :=
    Res.bind (evalV step condE envH s) fun (cv, s1) =>
    Res.bind (condIntVal cv) fun b =>
    if b then
      Res.bind (execBlockF step body envH s1) fun (r, s2) =>
      if r.type = ValueType.VAL_BREAK then .ok (.vVoid, s2)
      else if r.type = ValueType.VAL_CONTINUE then
        whileV step condE body envH s2
      else if r.type ≠ ValueType.VAL_VOID then .ok (r, s2)
      else whileV step condE body envH s2
    else .ok (.vVoid, s1)


/-- The foreach loop body (lines 1117–1133): fresh binding of the loop
variable each iteration; count and items re-read from the heap. -/
def execForeachF (step : Step) (varName : String) (body : ASTNode)
    (lref i : Nat) (envH : Option Nat) (s : InterpState) :
    Res (Value × InterpState) :=
    match s.getObj lref with
    | some (.listObj items _ _) =>
      match items.get? i with
      | none => .ok (.vVoid, s)
      | some item =>
        let (eid, s1) := env_define s envH varName item
        Res.bind (execBlockF step body (some eid) s1) fun (r, s2) =>
        if r.type = ValueType.VAL_BREAK then .ok (.vVoid, s2)
        else if r.type = ValueType.VAL_CONTINUE then
          foreachV step varName body lref (i + 1) envH s2
        else if r.type ≠ ValueType.VAL_VOID then .ok (r, s2)
        else foreachV step varName body lref (i + 1) envH s2
    | _ => (.undef)


/-- The C-style for loop (lines 1146–1177), after the initializer: test,
body, then increment; Continue jumps to the increment; Break ends. -/
def execForLoopF (step : Step) (condE incr body : ASTNode)
    (forEnv : Option Nat) (s : InterpState) : Res (Value × InterpState) :=
    Res.bind (evalV step condE forEnv s) fun (cv, s1) =>
    Res.bind (condIntVal cv) fun b =>
    if b then
      Res.bind (execBlockF step body forEnv s1) fun (r, s2) =>
      if r.type = ValueType.VAL_BREAK then .ok (.vVoid, s2)
      else if r.type = ValueType.VAL_CONTINUE then
        Res.bind (execV step incr forEnv s2) fun (_, forEnv', s3) =>
        forV step condE incr body forEnv' s3
      else if r.type ≠ ValueType.VAL_VOID then .ok (r, s2)
      else
        Res.bind (execV step incr forEnv s2) fun (_, forEnv', s3) =>
        forV step condE incr body forEnv' s3
    else .ok (.vVoid, s1)


/-- The do-while loop (lines 1180–1187): body first, then the test; a C
`continue` inside the loop statement jumps to the test, like the
fall-through case. -/
def execDoWhileF (step : Step) (body condE : ASTNode) (envH : Option Nat)
    (s : InterpState) : Res (Value × InterpState) :=
    Res.bind (execBlockF step body envH s) fun (r, s1) =>
    if r.type = ValueType.VAL_BREAK then .ok (.vVoid, s1)
    else if r.type ≠ ValueType.VAL_VOID ∧ r.type ≠ ValueType.VAL_CONTINUE then
      .ok (r, s1)
    else
      Res.bind (evalV step condE envH s1) fun (cv, s2) =>
      Res.bind (condIntVal cv) fun b =>
      if b then doWhileV step body condE envH s2
      else .ok (.vVoid, s2)


/-- `exec` (lines 926–1297): statement execution.  Returns the signalling
value, the (possibly extended) environment head `*env_ptr`, and the state.
The first action is the `last_defined_class` reset of lines 936–938: any
statement that is not a function or class definition clears the latch. -/
def execF (step : Step) (node : ASTNode) (envH : Option Nat)
    (s0 : InterpState) : Res (Value × Option Nat × InterpState) :=
    let s := if node.type = ASTNodeType.AST_FUNC_DEF ∨
        node.type = ASTNodeType.AST_CLASS_DEF then s0
      else { s0 with lastDefinedClass := none }
    match node.type with
    | .AST_CLASS_DEF =>
      -- lines 941–961: allocate the class with an empty method map and no
      -- fields, bind it, and arm the method-attachment latch.  The
      -- children of the class node (its `define` and field-declaration
      -- nodes) are not visited.  (`parent` is left unset by the C code —
      -- uninitialized malloc memory — and is modelled as none; `fields`
      -- stays empty since `field_count` is set to 0 and never grown.)
      match node.value with
      | none => .undef
      | some name =>
        let (cid, s1) := allocObj s (.classObj name 0 [] none)
        let (mid, s2) := hashmap_create s1 .VAL_STRING .VAL_FUNC
        let s3 := s2.setObj cid (.classObj name mid [] none)
        let (i, s4) := env_define s3 envH name (.vClass cid)
        .ok (.vVoid, some i, { s4 with lastDefinedClass := some cid })
    | .AST_FUNC_DEF =>
      -- lines 963–987: allocate the function capturing the current
      -- environment; install it as a method of the latched class if one is
      -- armed, else bind it in the environment.
      match node.value with
      | none => .undef
      | some name =>
        let (fid, s1) := allocObj s (.funcObj name node envH)
        match s1.lastDefinedClass with
        | some cid =>
          match s1.getObj cid with
          | some (.classObj _ methodsRef _ _) =>
            Res.bind (hashmap_set s1 methodsRef name (.vFunc fid) node.lineNum)
              fun s2 => .ok (.vVoid, envH, s2)
          | _ => .undef
        | none =>
          let (i, s2) := env_define s1 envH name (.vFunc fid)
          .ok (.vVoid, some i, s2)
    | .AST_PRINT =>
      Res.bind (execPrintArgsF step node.children envH s) fun s1 =>
      .ok (.vVoid, envH, s1)
    | .AST_VAR_DECL =>
      -- lines 998–1051.
      match node.value with
      | none => .undef
      | some name =>
        match node.child? 0 with
        | some spec =>
          if spec.type = ASTNodeType.AST_ARRAY_SPECIFIER then
            match spec.children with
            | [] =>
              -- line 1002: a list value holding a NULL pointer.
              let (i, s1) := env_define s envH name (.vList none)
              .ok (.vVoid, some i, s1)
            | sizeE :: _ =>
              Res.bind (evalV step sizeE envH s) fun (sv, s1) =>
              match readIntVal sv with
              | none => .undef
              | some size =>
                if size < 0 then .undef
                else
                  -- calloc zero-fills: an all-zero Value is VAL_INT 0.
                  let (lref, s2) := allocObj s1
                    (.listObj (List.replicate size.toNat (.vInt 0)) size.toNat true)
                  let (i, s3) := env_define s2 envH name (.vList (some lref))
                  .ok (.vVoid, some i, s3)
          else execVarDeclTailF step node name envH s
        | none => execVarDeclTailF step node name envH s
    | .AST_ASSIGNMENT =>
      -- lines 1053–1086.
      match node.child? 0, node.child? 1 with
      | some target, some rhs =>
        Res.bind (evalV step rhs envH s) fun (val, s1) =>
        if target.type = ASTNodeType.AST_VAR_REF then
          match target.value with
          | none => .undef
          | some nm =>
            Res.bind (env_assign s1 envH nm val target.lineNum) fun s2 =>
            .ok (.vVoid, envH, s2)
        else if target.type = ASTNodeType.AST_FIELD_ACCESS then
          match target.child? 0 with
          | none => .undef
          | some oe =>
            Res.bind (evalV step oe envH s1) fun (obj, s2) =>
            match obj with
            | .vInstance iref =>
              match s2.getObj iref with
              | some (.instObj _ fieldsRef) =>
                match target.value with
                | none => .undef
                | some fname =>
                  Res.bind (hashmap_set s2 fieldsRef fname val target.lineNum)
                    fun s3 => .ok (.vVoid, envH, s3)
              | _ => .undef
            | _ =>
              .err target.lineNum ("Cannot assign to a field on a value of type '"
                ++ get_value_type_name obj.type ++ "'.")
        else if target.type = ASTNodeType.AST_INDEX_ACCESS then
          match target.child? 0, target.child? 1 with
          | some ce, some ie =>
            Res.bind (evalV step ce envH s1) fun (coll, s2) =>
            Res.bind (evalV step ie envH s2) fun (idx, s3) =>
            match coll with
            | .vHashMap mref =>
              match idx with
              | .vString ks =>
                Res.bind (hashmap_set s3 mref ks val target.lineNum) fun s4 =>
                .ok (.vVoid, envH, s4)
              | _ => .err target.lineNum "Hashmap index must be a string."
            | .vList ref =>
              match idx with
              | .vInt i =>
                match ref with
                | none => .undef
                | some lref =>
                  match s3.getObj lref with
                  | some (.listObj items cap fixed) =>
                    if i < 0 ∨ (items.length : Int) ≤ i then
                      .err target.lineNum "Index out of bounds."
                    else
                      .ok (.vVoid, envH,
                        s3.setObj lref (.listObj (items.set i.toNat val) cap fixed))
                  | _ => .undef
              | _ => .err target.lineNum "List or array index must be an integer."
            | _ =>
              .err target.lineNum
                "Index assignment is only supported for lists, arrays, and hashmaps."
          | _, _ => .undef
        else .ok (.vVoid, envH, s1)  -- no branch matches: nothing happens
      | _, _ => .undef
    | .AST_IF =>
      -- lines 1088–1101.
      match node.child? 0, node.child? 1 with
      | some condE, some thenB =>
        Res.bind (evalV step condE envH s) fun (cv, s1) =>
        Res.bind (condIntVal cv) fun b =>
        if b then
          Res.bind (execBlockF step thenB envH s1) fun (r, s2) =>
          .ok (r, envH, s2)
        else
          match node.child? 2 with
          | some elseN =>
            if elseN.type = ASTNodeType.AST_IF then execV step elseN envH s1
            else
              Res.bind (execBlockF step elseN envH s1) fun (r, s2) =>
              .ok (r, envH, s2)
          | none => .ok (.vVoid, envH, s1)
      | _, _ => .undef
    | .AST_WHILE =>
      match node.child? 0, node.child? 1 with
      | some condE, some body =>
        Res.bind (execWhileF step condE body envH s) fun (v, s1) =>
        .ok (v, envH, s1)
      | _, _ => .undef
    | .AST_FOREACH =>
      -- lines 1111–1134.
      match node.value, node.child? 0, node.child? 1 with
      | some varName, some collE, some body =>
        Res.bind (evalV step collE envH s) fun (coll, s1) =>
        match coll with
        | .vList ref =>
          match ref with
          | none => .undef
          | some lref =>
            Res.bind (execForeachF step varName body lref 0 envH s1)
              fun (v, s2) => .ok (v, envH, s2)
        | _ =>
          .err node.lineNum "foreach loop can only iterate over a list or array."
      | _, _, _ => .undef
    | .AST_FOR =>
      -- lines 1136–1178: the initializer runs against a loop-local copy of
      -- the environment head.
      match node.child? 0, node.child? 1, node.child? 2, node.child? 3 with
      | some ini, some condE, some incr, some body =>
        Res.bind (execV step ini envH s) fun (_, forEnv, s1) =>
        Res.bind (execForLoopF step condE incr body forEnv s1) fun (v, s2) =>
        .ok (v, envH, s2)
      | _, _, _, _ => .undef
    | .AST_DO_WHILE =>
      match node.child? 0, node.child? 1 with
      | some body, some condE =>
        Res.bind (execDoWhileF step body condE envH s) fun (v, s1) =>
        .ok (v, envH, s1)
      | _, _ => .undef
    | .AST_SWITCH =>
      -- lines 1189–1231.
      match node.child? 0 with
      | none => .undef
      | some scrutE =>
        Res.bind (evalV step scrutE envH s) fun (v, s1) =>
        Res.bind (execSwitchCasesF step v (node.children.drop 1) false envH s1)
          fun (outcome, matched, s2) =>
        match outcome with
        | some r => .ok (r, envH, s2)
        | none =>
          if matched then .ok (.vVoid, envH, s2)
          else
            Res.bind (execDefaultsF step (node.children.drop 1) envH s2)
              fun (dout, s3) =>
            match dout with
            | some r => .ok (r, envH, s3)
            | none => .ok (.vVoid, envH, s3)
    | .AST_BREAK => .ok (.vBreak, envH, s)
    | .AST_CONTINUE => .ok (.vContinue, envH, s)
    | .AST_IMPORT => .unmodeled  -- host filesystem access (lines 1237–1288)
    | .AST_RETURN =>
      -- lines 1289–1290: `return eval(node->children[0], *env_ptr);`.
      match node.child? 0 with
      | some e =>
        Res.bind (evalV step e envH s) fun (v, s1) => .ok (v, envH, s1)
      | none => .undef
    | _ =>
      -- exec's default arm (lines 1291–1293): evaluate as an expression
      -- statement and discard the result.
      Res.bind (evalV step node envH s) fun (_, s1) =>
      .ok (.vVoid, envH, s1)

/-- Dispatch a request to the function that answers it. -/
def interpStepF (step : Step) : IReq → InterpState → Res (IOut × InterpState)
  | .eval node envH, s =>
    Res.bind (evalF step node envH s) fun (v, s1) => .ok (.val v, s1)
  | .exec node envH, s =>
    Res.bind (execF step node envH s) fun (v, e, s1) => .ok (.stmt v e, s1)
  | .whileLoop condE body envH, s =>
    Res.bind (execWhileF step condE body envH s) fun (v, s1) => .ok (.val v, s1)
  | .foreachLoop varName body lref i envH, s =>
    Res.bind (execForeachF step varName body lref i envH s) fun (v, s1) =>
    .ok (.val v, s1)
  | .forLoop condE incr body forEnv, s =>
    Res.bind (execForLoopF step condE incr body forEnv s) fun (v, s1) =>
    .ok (.val v, s1)
  | .doWhileLoop body condE envH, s =>
    Res.bind (execDoWhileF step body condE envH s) fun (v, s1) =>
    .ok (.val v, s1)

/-- The fuel-indexed driver: `interpRun (fuel+1)` answers a request with
the corresponding function, whose recursive entries run at fuel `fuel`. -/
def interpRun : Nat → IReq → InterpState → Res (IOut × InterpState)
  | 0, _, _ => .stuck
  | fuel + 1, req, s => interpStepF (interpRun fuel) req s

/-- `eval` at a given fuel. -/
def evalFuel (fuel : Nat) (node : ASTNode) (envH : Option Nat)
    (s : InterpState) : Res (Value × InterpState) :=
  evalV (interpRun fuel) node envH s

/-- `exec` at a given fuel. -/
def execFuel (fuel : Nat) (node : ASTNode) (envH : Option Nat)
    (s : InterpState) : Res (Value × Option Nat × InterpState) :=
  execV (interpRun fuel) node envH s

/-- The argument loop at a given fuel. -/
def evalArgs (fuel : Nat) (es : List ASTNode) (envH : Option Nat)
    (s : InterpState) : Res (List Value × InterpState) :=
  evalArgsF (interpRun fuel) es envH s

/-- The user-function call path at a given fuel. -/
def callUserFunc (fuel : Nat) (fref : Nat) (argv : List Value)
    (s : InterpState) : Res (Value × InterpState) :=
  callUserFuncF (interpRun fuel) fref argv s

/-- The bound-method call path at a given fuel. -/
def callBoundUserFunc (fuel : Nat) (recv : Value) (fref : Nat)
    (argv : List Value) (s : InterpState) : Res (Value × InterpState) :=
  callBoundUserFuncF (interpRun fuel) recv fref argv s

/-- `exec_block` at a given fuel. -/
def execBlock (fuel : Nat) (node : ASTNode) (envH : Option Nat)
    (s : InterpState) : Res (Value × InterpState) :=
  execBlockF (interpRun fuel) node envH s

/-- The statement loop of `exec_block` at a given fuel. -/
def execStmts (fuel : Nat) (sts : List ASTNode) (envH : Option Nat)
    (s : InterpState) : Res (Value × InterpState) :=
  execStmtsF (interpRun fuel) sts envH s

/-- The first switch walk at a given fuel. -/
def execSwitchCases (fuel : Nat) (v : Value) (cs : List ASTNode)
    (matched : Bool) (envH : Option Nat) (s : InterpState) :
    Res (Option Value × Bool × InterpState) :=
  execSwitchCasesF (interpRun fuel) v cs matched envH s

/-- The default walk of the switch at a given fuel. -/
def execDefaults (fuel : Nat) (cs : List ASTNode) (envH : Option Nat)
    (s : InterpState) : Res (Option Value × InterpState) :=
  execDefaultsF (interpRun fuel) cs envH s


/-! ## Program interpretation (`interpret` of `interpreter.c`) -/

/-- The empty interpreter state before `interpret` runs. -/
def initialState : InterpState :=
  ⟨[], none, none, none, none, none, []⟩

/-- The start-up of `interpret` (lines 1304–1306):
`define_all_natives_in_env` binds `clock` and `input` in the global
environment; `register_all_native_methods` builds the string- and
list-method registries; `register_all_native_modules` builds the native
module table (math, io, sys).  All natives are opaque host functions in
this model. -/
def setupInterp : Res InterpState := do
  let s := initialState
  let (c1, s) := env_define s none "clock" (.vNativeFn "clock")
  let (c2, s) := env_define s (some c1) "input" (.vNativeFn "input")
  let s := { s with globalEnv := some c2 }
  let (sm, s) := hashmap_create s .VAL_STRING .VAL_NATIVE_FN
  let s ← hashmap_set s sm "len" (.vNativeFn "len") 0
  let s ← hashmap_set s sm "trim" (.vNativeFn "trim") 0
  let s ← hashmap_set s sm "split" (.vNativeFn "split") 0
  let (lm, s) := hashmap_create s .VAL_STRING .VAL_NATIVE_FN
  let s ← hashmap_set s lm "len" (.vNativeFn "len") 0
  let s ← hashmap_set s lm "append" (.vNativeFn "append") 0
  let s ← hashmap_set s lm "join" (.vNativeFn "join") 0
  let s := { s with stringMethods := some sm, listMethods := some lm }
  let (mf, s) := hashmap_create s .VAL_STRING .VAL_HASHMAP
  let (mathMod, s) := hashmap_create s .VAL_STRING .VAL_NATIVE_FN
  let s ← hashmap_set s mathMod "sqrt" (.vNativeFn "sqrt") 0
  let s ← hashmap_set s mathMod "sin" (.vNativeFn "sin") 0
  let s ← hashmap_set s mathMod "cos" (.vNativeFn "cos") 0
  let s ← hashmap_set s mathMod "tan" (.vNativeFn "tan") 0
  let s ← hashmap_set s mathMod "floor" (.vNativeFn "floor") 0
  let s ← hashmap_set s mathMod "ceil" (.vNativeFn "ceil") 0
  let s ← hashmap_set s mathMod "log" (.vNativeFn "log") 0
  let s ← hashmap_set s mf "math" (.vHashMap mathMod) 0
  let (ioMod, s) := hashmap_create s .VAL_STRING .VAL_NATIVE_FN
  let s ← hashmap_set s ioMod "read_file" (.vNativeFn "read_file") 0
  let s ← hashmap_set s ioMod "write_file" (.vNativeFn "write_file") 0
  let s ← hashmap_set s mf "io" (.vHashMap ioMod) 0
  let (sysMod, s) := hashmap_create s .VAL_STRING .VAL_NATIVE_FN
  let s ← hashmap_set s sysMod "exit" (.vNativeFn "exit") 0
  let s ← hashmap_set s mf "sys" (.vHashMap sysMod) 0
  pure { s with moduleFuncs := some mf }

/-- The top-level statement loop of `interpret` (lines 1308–1310):
`exec(root->children[i], &global_env)` — the environment head threaded
through the statements is `global_env` itself. -/
def execTopLevel (fuel : Nat) : List ASTNode → InterpState → Res InterpState
  | [], s => .ok s
  | st :: rest, s =>
    Res.bind (execFuel fuel st s.globalEnv s) fun (_, env', s') =>
    execTopLevel fuel rest { s' with globalEnv := env' }

/-- `interpret` of `interpreter.c`: set up the natives and run the
program's top-level statements. -/
def interpretProgram (fuel : Nat) (root : ASTNode) : Res InterpState :=
  Res.bind setupInterp fun s => execTopLevel fuel root.children s

/-! ## Garbage collector (`gc.c`)

The collector is modelled over the same `Obj` type.  The intrusive object
list becomes a list of (address, object) pairs in list order (allocation
prepends, `sweep` walks in order and preserves the order of survivors).
The per-object `is_marked` bit is represented by membership of the address
in a mark set threaded through the mark phase: outside a collection cycle
every mark bit is clear (`allocate_obj` creates objects unmarked and
`sweep` clears the bit of every survivor), so a collection always starts
from the empty mark set, and `sweep` discarding the set is exactly the
bit-clearing of its marked branch. -/

/-- The heap references held by a value: `mark_value` (lines 111–132 of
`gc.c`).  A NULL pointer (`vList none`) falls into the NULL guard of
`mark_object` (line 141). -/
def valueChildIds : Value → List Nat
  | .vList (some r) => [r]
  | .vHashMap r => [r]
  | .vFunc r => [r]
  | .vModule r => [r]
  | .vClass r => [r]
  | .vInstance r => [r]
  | .vBoundMethod r => [r]
  | .vStructDef r => [r]
  | .vStructInstance r => [r]
  | _ => []

/-- The per-type traversal of `mark_object` (lines 150–231 of `gc.c`): the
addresses an object marks, in the source's order. -/
def objChildIds : Obj → List Nat
  | .listObj items _ _ => (items.map valueChildIds).flatten
  | .mapObj entries _ _ => (entries.map (fun e => valueChildIds e.2)).flatten
  | .funcObj _ _ env => match env with | some e => [e] | none => []
  | .moduleObj _ members => [members]
  | .classObj _ methods _ parent =>
    methods :: (match parent with | some p => [p] | none => [])
  | .instObj cls fields => [cls, fields]
  | .boundMethodObj recv m => valueChildIds recv ++ valueChildIds m
  | .envNode _ v next =>
    valueChildIds v ++ (match next with | some n => [n] | none => [])

/-- Address lookup in the object list. -/
def gcLookup (h : List (Nat × Obj)) (i : Nat) : Option Obj :=
  (h.find? (fun e => e.1 = i)).map (·.2)

/-- The number of heap entries not yet marked; the fuel measure of the
marking recursion (the C recursion terminates because every recursive
`mark_object` call either returns at once or marks a new object). -/
def unmarkedCount (h : List (Nat × Obj)) (m : List Nat) : Nat :=
  (h.filter (fun e => !m.contains e.1)).length

mutual

/-- `mark_object` (lines 139–232): the NULL guard, the already-marked
early return, then set the bit and mark the children. -/
def markObject (h : List (Nat × Obj)) (fuel : Nat) (m : List Nat) (i : Nat) :
    List Nat :=
  match gcLookup h i with
  | none => m
  | some o =>
    if i ∈ m then m
    else
      match fuel with
      | 0 => m
      | fuel' + 1 => markChildren h fuel' (i :: m) (objChildIds o)
termination_by (fuel, 0)

/-- The child-marking loops inside `mark_object`. -/
def markChildren (h : List (Nat × Obj)) (fuel : Nat) (m : List Nat)
    (cs : List Nat) : List Nat :=
  match cs with
  | [] => m
  | c :: cs' => markChildren h fuel (markObject h fuel m c) cs'
termination_by (fuel, cs.length + 1)

end

/-- `mark_roots` (lines 239–254), abstracted over the root list (the
global environment head, the three native registries, and the temporary
root stack). -/
def markRoots (h : List (Nat × Obj)) (roots : List Nat) : List Nat :=
  markChildren h (h.length + 1) [] roots

/-- `sweep` (lines 280–414): walk the object list; unmarked objects are
freed (dropped, with their owned memory), marked objects survive with the
mark bit cleared (the discarded mark set).  Order is preserved. -/
def sweep (h : List (Nat × Obj)) (m : List Nat) : List (Nat × Obj) :=
  h.filter (fun e => m.contains e.1)

/-- `gc_collect` (lines 422–438): mark from the roots, then sweep.  (The
byte-count and threshold update do not affect the object list.) -/
def gc_collect (h : List (Nat × Obj)) (roots : List Nat) : List (Nat × Obj) :=
  sweep h (markRoots h roots)

/-- Reachability over the object list: an address is reachable when it is
a root present in the list, or a present child of a reachable object's
first-found entry.  This is the proof-side characterisation of what the
mark phase visits, used to settle the idempotence claim. -/
inductive ReachesFrom (h : List (Nat × Obj)) (roots : List Nat) : Nat → Prop
  | root (i : Nat) (o : Obj) : i ∈ roots → gcLookup h i = some o →
      ReachesFrom h roots i
  | child (p c : Nat) (o oc : Obj) : ReachesFrom h roots p →
      gcLookup h p = some o → c ∈ objChildIds o → gcLookup h c = some oc →
      ReachesFrom h roots c

/-- `r` contains every present child of the object at `j`. -/
def ClosedAt (h : List (Nat × Obj)) (r : List Nat) (j : Nat) : Prop :=
  ∀ o, gcLookup h j = some o → ∀ c ∈ objChildIds o,
    (∃ oc, gcLookup h c = some oc) → c ∈ r

/-! ## Claim-side switch semantics (for the switch claim)

The following two functions are written from the claim's words — cases are
examined in order, the first case with the scrutinee's type and equal value
(for int or string) matches, from the first match onward the bodies of the
subsequent cases and defaults execute until one produces a Break, and a
missing match runs the defaults — to be compared with the transcription
`execSwitchCases` above. -/

/-- Fall-through execution from the first match onward: every subsequent
case body (and default body) runs; a body producing Break ends the switch
(with a void result), any other non-void body result ends it with that
result.  Case expressions of fallen-through cases are still evaluated, as
in the source. -/
def switchFall (step : Step) : Value → List ASTNode → Option Nat →
    InterpState → Res (Option Value × InterpState)
  | _, [], _, s => .ok (none, s)
  | v, c :: rest, envH, s =>
    if c.type = ASTNodeType.AST_CASE then
      match c.child? 0 with
      | none => .undef
      | some ce =>
        Res.bind (evalV step ce envH s) fun (_, s1) =>
        match c.child? 1 with
        | some body =>
          Res.bind (execBlockF step body envH s1) fun (r, s2) =>
          if r.type = ValueType.VAL_BREAK then .ok (some .vVoid, s2)
          else if r.type ≠ ValueType.VAL_VOID then .ok (some r, s2)
          else switchFall step v rest envH s2
        | none => switchFall step v rest envH s1
    else if c.type = ASTNodeType.AST_DEFAULT then
      match c.child? 0 with
      | some body =>
        Res.bind (execBlockF step body envH s) fun (r, s1) =>
        if r.type = ValueType.VAL_BREAK then .ok (some .vVoid, s1)
        else if r.type ≠ ValueType.VAL_VOID then .ok (some r, s1)
        else switchFall step v rest envH s1
      | none => switchFall step v rest envH s
    else switchFall step v rest envH s

/-- The in-order search for the first matching case: each case expression
is evaluated in turn and compared with the scrutinee value; the first
structural match enters fall-through execution at its own body; defaults
and other children are skipped during the search.  Returns the early
result (if any) and whether a case matched. -/
def switchFind (step : Step) : Value → List ASTNode → Option Nat →
    InterpState → Res (Option Value × Bool × InterpState)
  | _, [], _, s => .ok (none, false, s)
  | v, c :: rest, envH, s =>
    if c.type = ASTNodeType.AST_CASE then
      match c.child? 0 with
      | none => .undef
      | some ce =>
        Res.bind (evalV step ce envH s) fun (cv, s1) =>
        if switchMatch v cv then
          match c.child? 1 with
          | some body =>
            Res.bind (execBlockF step body envH s1) fun (r, s2) =>
            if r.type = ValueType.VAL_BREAK then .ok (some .vVoid, true, s2)
            else if r.type ≠ ValueType.VAL_VOID then .ok (some r, true, s2)
            else
              Res.bind (switchFall step v rest envH s2) fun (o, s3) =>
              .ok (o, true, s3)
          | none =>
            Res.bind (switchFall step v rest envH s1) fun (o, s2) =>
            .ok (o, true, s2)
        else switchFind step v rest envH s1
    else switchFind step v rest envH s

/-! ## Concrete programs for the counterexamples -/

/-- AST builder: a node with a kind, an optional payload, and children. -/
def mkN (t : ASTNodeType) (v : Option String) (cs : List ASTNode) : ASTNode :=
  .mk t v none none cs [] 1

/-- AST builder: a function definition with a body block. -/
def funcDefNode (name : String) (params : List String)
    (body : List ASTNode) : ASTNode :=
  .mk .AST_FUNC_DEF (some name) none none [mkN .AST_BLOCK none body] params 1

/-- AST builder: a typed variable declaration. -/
def varDeclNode (tn name : String) (init : List ASTNode) : ASTNode :=
  .mk .AST_VAR_DECL (some name) (some tn) none init [] 1

/-- `define f(): break` followed by `int x = f()`: the break statement has
no enclosing loop in the function body, so the Break signalling value is
returned by `exec_block`, becomes the call's value, and is bound to `x`. -/
def progBreakEscape : ASTNode :=
  mkN .AST_PROGRAM (some "root")
    [funcDefNode "f" [] [mkN .AST_BREAK none []],
     varDeclNode "int" "x"
       [mkN .AST_FUNC_CALL none [mkN .AST_VAR_REF (some "f") []]]]

/-- `define f(): { int y; return y; print(5) }` then `f()`: the returned
expression evaluates to void, so `exec_block` does not stop at the return
statement and the print after it runs. -/
def progReturnVoid : ASTNode :=
  mkN .AST_PROGRAM (some "root")
    [funcDefNode "f" []
      [varDeclNode "int" "y" [],
       mkN .AST_RETURN none [mkN .AST_VAR_REF (some "y") []],
       mkN .AST_PRINT none [mkN .AST_INT_LITERAL (some "5") []]],
     mkN .AST_FUNC_CALL none [mkN .AST_VAR_REF (some "f") []]]

/-- A class definition with one `define` child, as the parser produces for
`class C:` / `define m(): return 7`. -/
def classWithMethodNode : ASTNode :=
  mkN .AST_CLASS_DEF (some "C")
    [funcDefNode "m" [] [mkN .AST_RETURN none [mkN .AST_INT_LITERAL (some "7") []]]]

/-- `class A: pass`, then `if true: class B: pass`, then `define f()`: the
`if` statement is not itself a definition statement, but the class
definition nested in its block re-arms the latch, so `f` is installed as a
method of `B` and never bound in the environment. -/
def progLatchNested : ASTNode :=
  mkN .AST_PROGRAM (some "root")
    [mkN .AST_CLASS_DEF (some "A") [],
     mkN .AST_IF none
       [mkN .AST_BOOL_LITERAL (some "true") [],
        mkN .AST_BLOCK none [mkN .AST_CLASS_DEF (some "B") []]],
     funcDefNode "f" [] [mkN .AST_RETURN none [mkN .AST_INT_LITERAL (some "1") []]]]

/-- Checker for the break-escape run: after `progBreakEscape`, the global
environment binds `x` to the internal Break signalling value. -/
def breakEscapeCheck : Bool :=
  match interpretProgram 32 progBreakEscape with
  | .ok s => decide (envChainFind s s.globalEnv "x" = some Value.vBreak)
  | _ => false

/-- Checker for the void-return run: after `progReturnVoid`, the print
statement placed after the `return` has executed. -/
def returnVoidCheck : Bool :=
  match interpretProgram 32 progReturnVoid with
  | .ok s => decide (s.printed = [Value.vInt 5])
  | _ => false

/-- Checker for the latch run: after `progLatchNested`, `f` is not bound
in the global environment, and the class `B` (defined inside the `if`
body) has `f` in its method map. -/
def latchEscapeCheck : Bool :=
  match interpretProgram 32 progLatchNested with
  | .ok s =>
    decide (envChainFind s s.globalEnv "f" = none) &&
    s.heap.any (fun o =>
      match o with
      | .classObj "B" mref _ _ =>
        match s.getObj mref with
        | some (.mapObj entries _ _) => entries.any (fun e => e.1 = "f")
        | _ => false
      | _ => false)
  | _ => false

/-! # Theorems -/

@[simp] theorem Res.bind_ok {α β : Type} (a : α) (f : α → Res β) :
    Res.bind (.ok a) f = f a := rfl

@[simp] theorem Res.bind_err {α β : Type} (l : Nat) (m : String)
    (f : α → Res β) : Res.bind (.err l m) f = .err l m := rfl

@[simp] theorem Res.bind_undef {α β : Type} (f : α → Res β) :
    Res.bind (.undef : Res α) f = .undef := rfl

@[simp] theorem Res.bind_unmodeled {α β : Type} (f : α → Res β) :
    Res.bind (.unmodeled : Res α) f = .unmodeled := rfl

@[simp] theorem Res.bind_stuck {α β : Type} (f : α → Res β) :
    Res.bind (.stuck : Res α) f = .stuck := rfl

theorem Res.bind_assoc {α β γ : Type} (x : Res α) (f : α → Res β)
    (g : β → Res γ) :
    Res.bind (Res.bind x f) g = Res.bind x fun a => Res.bind (f a) g := by
  cases x <;> rfl

theorem Res.bind_congr {α β : Type} (x : Res α) (f g : α → Res β)
    (h : ∀ a, f a = g a) : Res.bind x f = Res.bind x g := by
  cases x <;> simp [Res.bind, h]

/-- Setting the element right after a prefix. -/
theorem list_set_append_len {α : Type} (l1 : List α) (x y : α) (l2 : List α) :
    (l1 ++ x :: l2).set l1.length y = l1 ++ y :: l2 := by
  induction l1 with
  | nil => rfl
  | cons a l ih => simp [List.set, ih]

/-! ### Unfolding equations of the evaluation nest -/

theorem evalFuel_zero (node : ASTNode) (envH : Option Nat) (s : InterpState) :
    evalFuel 0 node envH s = .stuck := rfl

theorem execFuel_zero (node : ASTNode) (envH : Option Nat) (s : InterpState) :
    execFuel 0 node envH s = .stuck := rfl

/-- One fuel tick of `eval`: the driver answers with `evalF`, whose
recursive entries run at the decremented fuel. -/
theorem evalFuel_succ (fuel : Nat) (node : ASTNode) (envH : Option Nat)
    (s : InterpState) :
    evalFuel (fuel + 1) node envH s = evalF (interpRun fuel) node envH s := by
  unfold evalFuel evalV interpRun
  simp only [interpStepF]
  cases evalF (interpRun fuel) node envH s with
  | ok p => cases p with | mk v s1 => rfl
  | err l m => rfl
  | undef => rfl
  | unmodeled => rfl
  | stuck => rfl

/-- One fuel tick of `exec`. -/
theorem execFuel_succ (fuel : Nat) (node : ASTNode) (envH : Option Nat)
    (s : InterpState) :
    execFuel (fuel + 1) node envH s = execF (interpRun fuel) node envH s := by
  unfold execFuel execV interpRun
  simp only [interpStepF]
  cases execF (interpRun fuel) node envH s with
  | ok p =>
    cases p with
    | mk v q => cases q with | mk e s1 => rfl
  | err l m => rfl
  | undef => rfl
  | unmodeled => rfl
  | stuck => rfl

/-- ### C10: integer division and modulo have no divisor guard

The int/int branch of the binary-operator evaluation (lines 802–808 of
`interpreter.c`) computes `/` and `%` with the C truncated
division/remainder and performs no check on the right operand and reports
no Pith-level error: with a non-zero divisor the C results are produced,
and with a zero divisor the evaluation is undefined behaviour (`undef`),
not a reported error (`err`).  `evalBinOp` is the operator dispatch used by
`evalFuel`'s `AST_BINARY_OP` arm. -/
theorem int_division_unguarded (a b : Int) :
    (b ≠ 0 →
      evalBinOp "/" (.vInt a) (.vInt b) = .ok (.vInt (Int.tdiv a b)) ∧
      evalBinOp "%" (.vInt a) (.vInt b) = .ok (.vInt (Int.tmod a b))) ∧
    (b = 0 →
      evalBinOp "/" (.vInt a) (.vInt b) = .undef ∧
      evalBinOp "%" (.vInt a) (.vInt b) = .undef ∧
      ∀ line msg, evalBinOp "/" (.vInt a) (.vInt b) ≠ .err line msg ∧
                  evalBinOp "%" (.vInt a) (.vInt b) ≠ .err line msg) := by
  constructor
  · intro hb
    constructor <;> simp [evalBinOp, hb]
  · intro hb
    subst hb
    refine ⟨by simp [evalBinOp], by simp [evalBinOp], ?_⟩
    intro line msg
    constructor <;> simp [evalBinOp]

/-- Witness for the division claim at concrete operands. -/
theorem int_division_unguarded_witness :
    evalBinOp "/" (.vInt 7) (.vInt 2) = .ok (.vInt (Int.tdiv 7 2)) ∧
    evalBinOp "%" (.vInt 7) (.vInt 0) = .undef := by
  exact ⟨((int_division_unguarded 7 2).1 (by decide)).1,
         ((int_division_unguarded 7 0).2 rfl).2.1⟩

/-- ### C7: the hash-map value-type guard

`hashmap_set` (lines 574–601 of `interpreter.c`): on a map whose declared
value type is not void, inserting a value of a different type reports a
type-mismatch error carrying the insertion-site line number, before the
entries are touched (the error return carries no updated state — the map
is unchanged); inserting a value of the declared type, or inserting
anything into a map whose declared value type is void, writes the entry. -/
theorem hashmap_set_type_guard (s : InterpState) (mref : Nat) (key : String)
    (v : Value) (line : Nat) (entries : List (String × Value))
    (kt vt : ValueType)
    (hm : s.getObj mref = some (.mapObj entries kt vt)) :
    (vt ≠ ValueType.VAL_VOID → v.type ≠ vt →
      hashmap_set s mref key v line =
        .err line ("Type mismatch: Cannot set value of type '" ++
          get_value_type_name v.type ++ "' in a hashmap expecting type '" ++
          get_value_type_name vt ++ "'.")) ∧
    (v.type = vt →
      hashmap_set s mref key v line =
        .ok (s.setObj mref (.mapObj (mapEntriesSet entries key v) kt vt))) ∧
    (vt = ValueType.VAL_VOID →
      hashmap_set s mref key v line =
        .ok (s.setObj mref (.mapObj (mapEntriesSet entries key v) kt vt))) := by
  refine ⟨?_, ?_, ?_⟩
  · intro h1 h2
    simp [hashmap_set, hm, h1, h2]
  · intro h
    simp [hashmap_set, hm, h]
  · intro h
    simp [hashmap_set, hm, h]

/-- Witness for the type-guard claim: a `map<string,int>` heap object
rejects a string insert with the error at line 42 and accepts an int
insert. -/
theorem hashmap_set_type_guard_witness :
    hashmap_set ⟨[.mapObj [] .VAL_STRING .VAL_INT], none, none, none, none,
        none, []⟩ 0 "k" (.vString "x") 42 =
      .err 42 ("Type mismatch: Cannot set value of type '" ++
        get_value_type_name (Value.vString "x").type ++
        "' in a hashmap expecting type '" ++
        get_value_type_name ValueType.VAL_INT ++ "'.") ∧
    hashmap_set ⟨[.mapObj [] .VAL_STRING .VAL_INT], none, none, none, none,
        none, []⟩ 0 "k" (.vInt 5) 42 =
      .ok (InterpState.setObj ⟨[.mapObj [] .VAL_STRING .VAL_INT], none, none,
        none, none, none, []⟩ 0
        (.mapObj (mapEntriesSet [] "k" (.vInt 5)) .VAL_STRING .VAL_INT)) := by
  constructor
  · exact (hashmap_set_type_guard ⟨[.mapObj [] .VAL_STRING .VAL_INT], none,
      none, none, none, none, []⟩ 0 "k" (.vString "x") 42 [] .VAL_STRING
      .VAL_INT rfl).1 (by decide) (by decide)
  · exact (hashmap_set_type_guard ⟨[.mapObj [] .VAL_STRING .VAL_INT], none,
      none, none, none, none, []⟩ 0 "k" (.vInt 5) 42 [] .VAL_STRING
      .VAL_INT rfl).2.1 rfl

/-! ### C4: layout tokens on blank lines -/

/-- The leading-whitespace counter consumes a whitespace run up to the
first non-whitespace character. -/
theorem countSpaces_append (ws : List Char) (t : Char) (rest : List Char)
    (hws : ∀ c ∈ ws, c = ' ' ∨ c = '\t') (ht : ¬(t = ' ' ∨ t = '\t')) :
    countSpaces (ws ++ t :: rest) = (ws.length, t :: rest) := by
  induction ws with
  | nil => simp [countSpaces, ht]
  | cons c cs ih =>
    have hc := hws c (List.mem_cons_self _ _)
    have ih' := ih (fun x hx => hws x (List.mem_cons_of_mem _ hx))
    simp only [List.cons_append, countSpaces, if_pos hc, List.append_eq, ih',
      List.length_cons]

/-- The single-line-comment skip stops at the newline. -/
theorem dropLineComment_append (cs rest : List Char)
    (h : ∀ c ∈ cs, c ≠ '\n') :
    dropLineComment (cs ++ '\n' :: rest) = '\n' :: rest := by
  induction cs with
  | nil => simp [dropLineComment]
  | cons c cs ih =>
    have hc := h c (List.mem_cons_self _ _)
    simp only [List.cons_append, dropLineComment, if_neg hc]
    exact ih (fun x hx => h x (List.mem_cons_of_mem _ hx))

/-- Counterexample to the blank-line claim as stated: a line consisting
only of whitespace followed by a comment.  The claim predicts no INDENT,
DEDENT or NEWLINE tokens for such a line, but the comment test of
`tokenize` (line 96 of `tokenizer.c`) runs before the line-start logic, so
the leading whitespace is consumed by the indentation handler as an
ordinary code-line prefix — here pushing an INDENT — and the line's newline
is seen with `at_line_start` already cleared, emitting a NEWLINE (the
matching DEDENT follows at end of input). -/
theorem blank_comment_line_emits_layout :
    tokenize "    # c\n" =
      [⟨TokenType.indent, none, 1⟩, ⟨TokenType.newline, none, 1⟩,
       ⟨TokenType.dedent, none, 2⟩, ⟨TokenType.eofTok, none, 2⟩] := by
  rfl

/-- One comment-branch step of the tokenizer loop: a `#` that does not
open a block comment skips to the end of the line. -/
theorem tokLoop_lineComment (f : Nat) (cs : List Char) (als : Bool)
    (ln : Nat) (stack : List Nat) (h1 : cs.take 2 ≠ ['#', '#']) :
    tokLoop (f + 1) ('#' :: cs) als ln stack =
      tokLoop f (dropLineComment ('#' :: cs)) als ln stack := by
  rw [tokLoop, if_pos rfl, if_neg h1]

/-- The amended blank-line claim.  First conjunct: a line consisting only
of whitespace (no comment) contributes no tokens at all — the loop state
after the line equals the state before it, with only the line counter
advanced.  Second conjunct: a non-empty whitespace run followed by a
line comment is *not* treated as blank: the indentation handler compares
the whitespace width against the stack (emitting the INDENT or DEDENTs of
`layoutStep`), the comment is skipped, and the line's newline emits a
NEWLINE token.  (A comment starting at column 0 leaves `at_line_start`
set, so that case still emits nothing — covered by neither conjunct, it
follows by one comment-skip step and the first conjunct.) -/
theorem blank_line_layout_amended (f : Nat) (ws cmt rest : List Char)
    (ln : Nat) (stack : List Nat)
    (hws : ∀ c ∈ ws, c = ' ' ∨ c = '\t')
    (hcmt : ∀ c ∈ cmt, c ≠ '\n')
    (hcmt2 : cmt.take 2 ≠ ['#', '#']) :
    tokLoop (f + 1) (ws ++ '\n' :: rest) true ln stack =
      tokLoop f rest true (ln + 1) stack ∧
    (ws ≠ [] →
      tokLoop (f + 3) (ws ++ '#' :: (cmt ++ '\n' :: rest)) true ln stack =
        (layoutStep ws.length stack ln).1 ++
          ⟨TokenType.newline, none, ln⟩ ::
            tokLoop f rest true (ln + 1) (layoutStep ws.length stack ln).2) := by
  constructor
  · -- whitespace-only line: no tokens, only the line counter advances
    match ws, hws with
    | [], _ => rfl
    | c :: ws', hws =>
      have hc := hws c (List.mem_cons_self _ _)
      have hch : ¬(c = '#') := by rcases hc with rfl | rfl <;> decide
      have hcs := countSpaces_append (c :: ws') '\n' rest hws (by decide)
      simp only [List.cons_append] at hcs ⊢
      rw [tokLoop, if_neg hch, if_pos rfl, hcs]
      simp
  · -- whitespace then comment: layout tokens and a NEWLINE are emitted
    intro hne
    match ws, hws, hne with
    | c :: ws', hws, _ =>
      have hc := hws c (List.mem_cons_self _ _)
      have hch : ¬(c = '#') := by rcases hc with rfl | rfl <;> decide
      have hcs := countSpaces_append (c :: ws') '#' (cmt ++ '\n' :: rest) hws
        (by decide)
      have hdrop : dropLineComment ('#' :: (cmt ++ '\n' :: rest)) =
          '\n' :: rest := by
        have h2 := dropLineComment_append ('#' :: cmt) rest
          (by intro x hx
              rcases List.mem_cons.mp hx with rfl | hx
              · decide
              · exact hcmt x hx)
        simpa using h2
      have hcmt2' : (cmt ++ '\n' :: rest).take 2 ≠ ['#', '#'] := by
        intro hcontra
        rcases cmt with _ | ⟨x, _ | ⟨y, t⟩⟩ <;> simp at hcontra
        exact hcmt2 (by simp [hcontra.1, hcontra.2])
      have step2 := tokLoop_lineComment (f + 1) (cmt ++ '\n' :: rest) false ln
        (layoutStep (c :: ws').length stack ln).2 hcmt2'
      rw [hdrop] at step2
      have step1 : tokLoop (f + 3)
          ((c :: ws') ++ '#' :: (cmt ++ '\n' :: rest)) true ln stack =
          (layoutStep (c :: ws').length stack ln).1 ++
            tokLoop (f + 2) ('#' :: (cmt ++ '\n' :: rest)) false ln
              (layoutStep (c :: ws').length stack ln).2 := by
        simp only [List.cons_append] at hcs ⊢
        rw [tokLoop, if_neg hch, if_pos rfl, hcs]
        simp
      rw [step1, step2]
      rfl

/-- Witness for the amended blank-line claim at a concrete line. -/
theorem blank_line_layout_amended_witness :
    tokLoop (10 + 1) ([' '] ++ '\n' :: ['x']) true 1 [0] =
      tokLoop 10 ['x'] true (1 + 1) [0] ∧
    ([' '] ≠ [] →
      tokLoop (10 + 3) ([' '] ++ '#' :: (['c'] ++ '\n' :: ['x'])) true 1 [0] =
        (layoutStep [' '].length [0] 1).1 ++
          ⟨TokenType.newline, none, 1⟩ ::
            tokLoop 10 ['x'] true (1 + 1) (layoutStep [' '].length [0] 1).2) :=
  blank_line_layout_amended 10 [' '] ['c'] ['x'] 1 [0]
    (by decide) (by decide) (by decide)

/-! ### Small heap lemmas -/

theorem list_get?_append_of_some {α : Type} (l1 l2 : List α) (i : Nat)
    (a : α) (h : l1.get? i = some a) : (l1 ++ l2).get? i = some a := by
  induction l1 generalizing i with
  | nil => simp [List.get?] at h
  | cons x xs ih =>
    cases i with
    | zero => simpa using h
    | succ j => simpa using ih j (by simpa using h)

/-- ### C1: executing a class definition installs nothing

`exec`'s `AST_CLASS_DEF` case (lines 941–961 of `interpreter.c`) allocates
the class, binds it, and arms the latch — and never visits the class
node's children.  For *every* class-definition node, whatever its `define`
and field-declaration children, the bound class has an **empty** method
map and an **empty** field list.  This contradicts the specified behaviour
(one method-map entry per `define` child, one field-list entry per field
declaration) and the spec's own class scenario (§8.2.3): with an empty
method map, `new C()` finds no `init` and a later method call fails with
"has no field or method named ...". -/
theorem class_def_installs_nothing (fuel : Nat) (node : ASTNode)
    (name : String) (envH : Option Nat) (s : InterpState)
    (ht : node.type = ASTNodeType.AST_CLASS_DEF)
    (hv : node.value = some name) :
    execFuel (fuel + 1) node envH s =
      .ok (.vVoid, some (s.heap.length + 2),
        { s with
            heap := s.heap ++
              [Obj.classObj name (s.heap.length + 1) [] none,
               Obj.mapObj [] .VAL_STRING .VAL_FUNC,
               Obj.envNode name (.vClass s.heap.length) envH],
            lastDefinedClass := some s.heap.length }) := by
  rw [execFuel_succ]
  simp only [execF]
  rw [if_pos (Or.inr ht)]
  simp only [ht, hv]
  simp only [allocObj, hashmap_create, env_define, value_copy,
    InterpState.setObj, List.append_assoc, List.cons_append, List.nil_append,
    List.length_append, List.length_cons, List.length_nil,
    list_set_append_len]

/-- Witness: the concrete class node with one `define` child binds a class
whose method map is the empty map object. -/
theorem class_def_installs_nothing_witness :
    execFuel (7 + 1) classWithMethodNode none initialState =
      .ok (.vVoid, some (initialState.heap.length + 2),
        { initialState with
            heap := initialState.heap ++
              [Obj.classObj "C" (initialState.heap.length + 1) [] none,
               Obj.mapObj [] .VAL_STRING .VAL_FUNC,
               Obj.envNode "C" (.vClass initialState.heap.length) none],
            lastDefinedClass := some initialState.heap.length }) :=
  class_def_installs_nothing 7 classWithMethodNode "C" none initialState
    rfl rfl

/-! ### C9: the method-attachment latch -/

/-- Counterexample to the claim that any non-definition statement clears
the attachment so that a later function definition binds normally: an `if`
statement whose block executes a class definition leaves the latch armed
on exit, so the following top-level `define` installs into that class and
binds nothing. -/
theorem latch_survives_nested_statement : latchEscapeCheck = true := by
  rfl

/-- The amended latch claim.  (i) A function definition executed with the
latch armed on class `cid` installs the function into that class's method
map and leaves the environment head untouched; (ii) with the latch clear
it binds the function in the environment; (iii) any statement that is not
a function or class definition clears the latch *on entry* (before its
sub-statements execute, which may re-arm it — see the counterexample). -/
theorem last_defined_class_latch :
    (∀ (fuel : Nat) (node : ASTNode) (name : String) (envH : Option Nat)
       (s : InterpState) (cid : Nat) (cn : String) (mref : Nat)
       (flds : List String) (par : Option Nat)
       (entries : List (String × Value)) (kt : ValueType),
      node.type = ASTNodeType.AST_FUNC_DEF →
      node.value = some name →
      s.lastDefinedClass = some cid →
      s.getObj cid = some (.classObj cn mref flds par) →
      s.getObj mref = some (.mapObj entries kt .VAL_FUNC) →
      execFuel (fuel + 1) node envH s =
        .ok (.vVoid, envH,
          InterpState.setObj
            { s with heap := s.heap ++ [Obj.funcObj name node envH] } mref
            (.mapObj (mapEntriesSet entries name (.vFunc s.heap.length))
              kt .VAL_FUNC))) ∧
    (∀ (fuel : Nat) (node : ASTNode) (name : String) (envH : Option Nat)
       (s : InterpState),
      node.type = ASTNodeType.AST_FUNC_DEF →
      node.value = some name →
      s.lastDefinedClass = none →
      execFuel (fuel + 1) node envH s =
        .ok (.vVoid, some (s.heap.length + 1),
          { s with heap := s.heap ++
              [Obj.funcObj name node envH,
               Obj.envNode name (.vFunc s.heap.length) envH] })) ∧
    (∀ (fuel : Nat) (node : ASTNode) (envH : Option Nat) (s : InterpState),
      node.type ≠ ASTNodeType.AST_FUNC_DEF →
      node.type ≠ ASTNodeType.AST_CLASS_DEF →
      execFuel fuel node envH s =
        execFuel fuel node envH { s with lastDefinedClass := none }) := by
  refine ⟨?_, ?_, ?_⟩
  · intro fuel node name envH s cid cn mref flds par entries kt ht hv hl hc hm
    have hc' : ({ s with heap := s.heap ++ [Obj.funcObj name node envH] }
        : InterpState).getObj cid = some (.classObj cn mref flds par) :=
      list_get?_append_of_some _ _ _ _ hc
    have hm' : ({ s with heap := s.heap ++ [Obj.funcObj name node envH] }
        : InterpState).getObj mref = some (.mapObj entries kt .VAL_FUNC) :=
      list_get?_append_of_some _ _ _ _ hm
    rw [execFuel_succ]
    simp only [execF]
    rw [if_pos (Or.inl ht)]
    simp only [ht, hv, allocObj]
    rw [hl] at hc' hm'
    simp only [hl, hc']
    simp only [hashmap_set, hm']
    simp [Value.type]
  · intro fuel node name envH s ht hv hl
    rw [execFuel_succ]
    simp only [execF]
    rw [if_pos (Or.inl ht)]
    simp only [ht, hv, allocObj]
    rw [show ({ s with heap := s.heap ++ [Obj.funcObj name node envH] }
        : InterpState).lastDefinedClass = none from hl]
    simp only [env_define, allocObj, value_copy, List.append_assoc,
      List.cons_append, List.nil_append, List.length_append,
      List.length_cons, List.length_nil]
  · intro fuel node envH s h1 h2
    cases fuel with
    | zero => rfl
    | succ f =>
      have hcond : ¬(node.type = ASTNodeType.AST_FUNC_DEF ∨
          node.type = ASTNodeType.AST_CLASS_DEF) := by
        intro h; rcases h with h | h; exact h1 h; exact h2 h
      rw [execFuel_succ, execFuel_succ]
      simp only [execF]
      rw [if_neg hcond, if_neg hcond]

/-- Witness for the latch theorem: part (i) at a concrete function
definition with the latch armed on a one-class heap. -/
theorem last_defined_class_latch_witness :
    execFuel (5 + 1) (funcDefNode "m" [] []) (some 9)
      ⟨[.classObj "C" 1 [] none, .mapObj [] .VAL_STRING .VAL_FUNC], none,
        some 0, none, none, none, []⟩ =
      .ok (.vVoid, some 9,
        InterpState.setObj
          { (⟨[.classObj "C" 1 [] none, .mapObj [] .VAL_STRING .VAL_FUNC],
              none, some 0, none, none, none, []⟩ : InterpState) with
            heap := [Obj.classObj "C" 1 [] none,
                     Obj.mapObj [] .VAL_STRING .VAL_FUNC] ++
              [Obj.funcObj "m" (funcDefNode "m" [] []) (some 9)] } 1
          (.mapObj (mapEntriesSet [] "m" (.vFunc 2)) .VAL_STRING
            .VAL_FUNC)) :=
  (last_defined_class_latch.1 5 (funcDefNode "m" [] []) "m" (some 9)
    ⟨[.classObj "C" 1 [] none, .mapObj [] .VAL_STRING .VAL_FUNC], none,
      some 0, none, none, none, []⟩ 0 "C" 1 [] none [] .VAL_STRING
    rfl rfl rfl rfl rfl)

/-! ### C3: return statements -/

/-- Counterexample to the return claim as stated: a `return` whose
expression evaluates to void does not stop the enclosing block —
`exec_block` only stops on a non-void result (line 540 of
`interpreter.c`) — so the print statement after the `return` executes. -/
theorem return_of_void_continues : returnVoidCheck = true := by
  rfl

/-- The amended return claim: executing `return expr` evaluates `expr`,
and *provided the value is not void*, the enclosing `exec_block` stops at
the return statement — the result is the returned value and the statement
list after the return is never consulted (the conclusion holds for every
`rest`) — and a call of a function with that body yields exactly that
value.  (A void-valued return is indistinguishable from an ordinary
statement and execution continues; see the counterexample.) -/
theorem return_stops_block_unless_void (fuel : Nat) (ret e : ASTNode)
    (rest : List ASTNode) (envH : Option Nat) (s s1 : InterpState) (v : Value)
    (ht : ret.type = ASTNodeType.AST_RETURN)
    (hc : ret.child? 0 = some e)
    (he : evalFuel fuel e envH { s with lastDefinedClass := none } =
      .ok (v, s1))
    (hv : v.type ≠ ValueType.VAL_VOID) :
    execStmts (fuel + 1) (ret :: rest) envH s = .ok (v, s1) ∧
    (∀ (fref : Nat) (nm : String) (body blk : ASTNode),
      s.getObj fref = some (.funcObj nm body envH) →
      body.args = [] →
      body.child? 0 = some blk →
      blk.children = ret :: rest →
      callUserFunc (fuel + 1) fref [] s = .ok (v, s1)) := by
  have hret : ¬(ret.type = ASTNodeType.AST_FUNC_DEF ∨
      ret.type = ASTNodeType.AST_CLASS_DEF) := by
    rw [ht]; intro h; rcases h with h | h <;> simp at h
  have hexec : execFuel (fuel + 1) ret envH s = .ok (v, envH, s1) := by
    rw [execFuel_succ]
    simp only [execF]
    rw [if_neg hret]
    simp only [ht, hc]
    simp only [evalFuel] at he
    rw [he]
    rfl
  have hstmts : execStmtsF (interpRun (fuel + 1)) (ret :: rest) envH s =
      .ok (v, s1) := by
    simp only [execFuel, execV] at hexec
    simp only [execStmtsF, execV, hexec, Res.bind_ok, if_pos hv]
  refine ⟨hstmts, ?_⟩
  intro fref nm body blk hf hargs hblk hchildren
  show callUserFuncF (interpRun (fuel + 1)) fref [] s = .ok (v, s1)
  simp only [callUserFuncF, hf, hargs, hblk, bindParams, Res.bind_ok]
  show execBlockF (interpRun (fuel + 1)) blk envH s = .ok (v, s1)
  simp only [execBlockF, hchildren]
  exact hstmts

/-- Witness for the amended return claim: a concrete one-function state
whose body is `return 3; print 9`. -/
theorem return_stops_block_unless_void_witness :
    execStmts (1 + 1)
      [mkN .AST_RETURN none [mkN .AST_INT_LITERAL (some "3") []],
       mkN .AST_PRINT none [mkN .AST_INT_LITERAL (some "9") []]] none
      ⟨[Obj.funcObj "f"
          (funcDefNode "f" []
            [mkN .AST_RETURN none [mkN .AST_INT_LITERAL (some "3") []],
             mkN .AST_PRINT none [mkN .AST_INT_LITERAL (some "9") []]]) none],
        none, none, none, none, none, []⟩ =
      .ok (.vInt 3,
        ⟨[Obj.funcObj "f"
            (funcDefNode "f" []
              [mkN .AST_RETURN none [mkN .AST_INT_LITERAL (some "3") []],
               mkN .AST_PRINT none [mkN .AST_INT_LITERAL (some "9") []]])
            none], none, none, none, none, none, []⟩) ∧
    (∀ (fref : Nat) (nm : String) (body blk : ASTNode),
      (⟨[Obj.funcObj "f"
          (funcDefNode "f" []
            [mkN .AST_RETURN none [mkN .AST_INT_LITERAL (some "3") []],
             mkN .AST_PRINT none [mkN .AST_INT_LITERAL (some "9") []]]) none],
        none, none, none, none, none, []⟩ : InterpState).getObj fref =
          some (.funcObj nm body none) →
      body.args = [] →
      body.child? 0 = some blk →
      blk.children =
        mkN .AST_RETURN none [mkN .AST_INT_LITERAL (some "3") []] ::
          [mkN .AST_PRINT none [mkN .AST_INT_LITERAL (some "9") []]] →
      callUserFunc (1 + 1) fref []
        ⟨[Obj.funcObj "f"
            (funcDefNode "f" []
              [mkN .AST_RETURN none [mkN .AST_INT_LITERAL (some "3") []],
               mkN .AST_PRINT none [mkN .AST_INT_LITERAL (some "9") []]])
            none], none, none, none, none, none, []⟩ =
        .ok (.vInt 3,
          ⟨[Obj.funcObj "f"
              (funcDefNode "f" []
                [mkN .AST_RETURN none [mkN .AST_INT_LITERAL (some "3") []],
                 mkN .AST_PRINT none [mkN .AST_INT_LITERAL (some "9") []]])
              none], none, none, none, none, none, []⟩)) :=
  return_stops_block_unless_void 1
    (mkN .AST_RETURN none [mkN .AST_INT_LITERAL (some "3") []])
    (mkN .AST_INT_LITERAL (some "3") [])
    [mkN .AST_PRINT none [mkN .AST_INT_LITERAL (some "9") []]] none
    ⟨[Obj.funcObj "f"
        (funcDefNode "f" []
          [mkN .AST_RETURN none [mkN .AST_INT_LITERAL (some "3") []],
           mkN .AST_PRINT none [mkN .AST_INT_LITERAL (some "9") []]]) none],
      none, none, none, none, none, []⟩
    ⟨[Obj.funcObj "f"
        (funcDefNode "f" []
          [mkN .AST_RETURN none [mkN .AST_INT_LITERAL (some "3") []],
           mkN .AST_PRINT none [mkN .AST_INT_LITERAL (some "9") []]]) none],
      none, none, none, none, none, []⟩
    (.vInt 3) rfl rfl rfl (by decide)


/-! ### C5: switch semantics -/

/-- The `matched = true` walk of `exec`'s switch cases is exactly the
claim-side fall-through execution. -/
theorem switchCases_true_eq_fall (step : Step) (v : Value) :
    ∀ (cs : List ASTNode) (envH : Option Nat) (s : InterpState),
    execSwitchCasesF step v cs true envH s =
      Res.bind (switchFall step v cs envH s) fun p => .ok (p.1, true, p.2) := by
  intro cs
  induction cs with
  | nil => intro envH s; rfl
  | cons c rest ih =>
    intro envH s
    simp only [execSwitchCasesF, switchFall]
    by_cases hc : c.type = ASTNodeType.AST_CASE
    · rw [if_pos hc, if_pos hc]
      cases hch : c.child? 0 with
      | none => rfl
      | some ce =>
        rw [Res.bind_assoc]
        refine Res.bind_congr _ _ _ ?_
        rintro ⟨cv, s1⟩
        simp only [Bool.true_or]
        rw [if_pos trivial]
        cases hbch : c.child? 1 with
        | none => exact ih envH s1
        | some body =>
          rw [Res.bind_assoc]
          refine Res.bind_congr _ _ _ ?_
          rintro ⟨r, s2⟩
          by_cases hbr : r.type = ValueType.VAL_BREAK
          · rw [if_pos hbr, if_pos hbr]; rfl
          · rw [if_neg hbr, if_neg hbr]
            by_cases hrv : r.type = ValueType.VAL_VOID
            · rw [if_neg (not_not_intro hrv), if_neg (not_not_intro hrv)]
              exact ih envH s2
            · rw [if_pos hrv, if_pos hrv]; rfl
    · rw [if_neg hc, if_neg hc]
      by_cases hd : c.type = ASTNodeType.AST_DEFAULT
      · rw [if_pos hd, if_pos hd, if_pos trivial]
        cases hdch : c.child? 0 with
        | none => exact ih envH s
        | some body =>
          rw [Res.bind_assoc]
          refine Res.bind_congr _ _ _ ?_
          rintro ⟨r, s1⟩
          by_cases hbr : r.type = ValueType.VAL_BREAK
          · rw [if_pos hbr, if_pos hbr]; rfl
          · rw [if_neg hbr, if_neg hbr]
            by_cases hrv : r.type = ValueType.VAL_VOID
            · rw [if_neg (not_not_intro hrv), if_neg (not_not_intro hrv)]
              exact ih envH s1
            · rw [if_pos hrv, if_pos hrv]; rfl
      · rw [if_neg hd, if_neg hd]
        exact ih envH s

/-- The `matched = false` walk of `exec`'s switch cases is exactly the
claim-side in-order search for the first structural match. -/
theorem switchCases_false_eq_find (step : Step) (v : Value) :
    ∀ (cs : List ASTNode) (envH : Option Nat) (s : InterpState),
    execSwitchCasesF step v cs false envH s = switchFind step v cs envH s := by
  intro cs
  induction cs with
  | nil => intro envH s; rfl
  | cons c rest ih =>
    intro envH s
    simp only [execSwitchCasesF, switchFind]
    by_cases hc : c.type = ASTNodeType.AST_CASE
    · rw [if_pos hc, if_pos hc]
      cases hch : c.child? 0 with
      | none => rfl
      | some ce =>
        refine Res.bind_congr _ _ _ ?_
        rintro ⟨cv, s1⟩
        simp only [Bool.false_or]
        by_cases hm : switchMatch v cv = true
        · rw [if_pos hm, if_pos hm]
          cases hbch : c.child? 1 with
          | none => exact switchCases_true_eq_fall step v rest envH s1
          | some body =>
            refine Res.bind_congr _ _ _ ?_
            rintro ⟨r, s2⟩
            by_cases hbr : r.type = ValueType.VAL_BREAK
            · rw [if_pos hbr, if_pos hbr]
            · rw [if_neg hbr, if_neg hbr]
              by_cases hrv : r.type = ValueType.VAL_VOID
              · rw [if_neg (not_not_intro hrv), if_neg (not_not_intro hrv)]
                exact switchCases_true_eq_fall step v rest envH s2
              · rw [if_pos hrv, if_pos hrv]
        · rw [if_neg hm, if_neg hm]
          exact ih envH s1
    · rw [if_neg hc, if_neg hc]
      by_cases hd : c.type = ASTNodeType.AST_DEFAULT
      · rw [if_pos hd, if_neg Bool.false_ne_true]
        exact ih envH s
      · rw [if_neg hd]
        exact ih envH s

/-- ### C5: switch statements evaluate the scrutinee once and fall through

First conjunct: the source's case walk with the `matched` flag clear is
the claim's in-order search for the first case whose evaluated expression
structurally matches the scrutinee (`switchMatch`: same type, equal value
for int and string).  Second conjunct: with the flag set, the walk is the
claim's fall-through execution — every subsequent case and default body
runs until one produces Break (ending the switch with a void result) or
another non-void value.  Third conjunct: `exec`'s switch arm evaluates the
scrutinee exactly once and hands its value to the search; when the search
returns no early result and no case matched, the default walk runs. -/
theorem switch_first_match_fallthrough :
    (∀ (step : Step) (v : Value) (cs : List ASTNode) (envH : Option Nat)
       (s : InterpState),
      execSwitchCasesF step v cs false envH s = switchFind step v cs envH s) ∧
    (∀ (step : Step) (v : Value) (cs : List ASTNode) (envH : Option Nat)
       (s : InterpState),
      execSwitchCasesF step v cs true envH s =
        Res.bind (switchFall step v cs envH s) fun p =>
          .ok (p.1, true, p.2)) ∧
    (∀ (fuel : Nat) (node scrutE : ASTNode) (envH : Option Nat)
       (s : InterpState),
      node.type = ASTNodeType.AST_SWITCH →
      node.child? 0 = some scrutE →
      execFuel (fuel + 1) node envH s =
        Res.bind
          (evalFuel fuel scrutE envH { s with lastDefinedClass := none })
          fun p =>
        Res.bind (switchFind (interpRun fuel) p.1 (node.children.drop 1)
            envH p.2) fun q =>
        match q.1 with
        | some r => .ok (r, envH, q.2.2)
        | none =>
          if q.2.1 then .ok (.vVoid, envH, q.2.2)
          else
            Res.bind (execDefaults fuel (node.children.drop 1) envH q.2.2)
              fun d =>
            match d.1 with
            | some r => .ok (r, envH, d.2)
            | none => .ok (.vVoid, envH, d.2)) := by
  refine ⟨switchCases_false_eq_find, switchCases_true_eq_fall, ?_⟩
  intro fuel node scrutE envH s ht hsc
  have hne : ¬(node.type = ASTNodeType.AST_FUNC_DEF ∨
      node.type = ASTNodeType.AST_CLASS_DEF) := by
    rw [ht]; decide
  rw [execFuel_succ]
  simp only [execF]
  rw [if_neg hne]
  simp only [ht, hsc]
  simp only [evalFuel, execDefaults]
  refine Res.bind_congr _ _ _ ?_
  rintro ⟨v, s1⟩
  rw [switchCases_false_eq_find]

/-- Witness for the switch claim: the third conjunct at a concrete
childless switch. -/
theorem switch_first_match_fallthrough_witness :
    execFuel (1 + 1)
        (mkN .AST_SWITCH none [mkN .AST_INT_LITERAL (some "1") []]) none
        initialState =
      Res.bind
        (evalFuel 1 (mkN .AST_INT_LITERAL (some "1") []) none
          { initialState with lastDefinedClass := none })
        fun p =>
      Res.bind (switchFind (interpRun 1) p.1
          ((mkN .AST_SWITCH none
            [mkN .AST_INT_LITERAL (some "1") []]).children.drop 1)
          none p.2) fun q =>
      match q.1 with
      | some r => .ok (r, none, q.2.2)
      | none =>
        if q.2.1 then .ok (.vVoid, none, q.2.2)
        else
          Res.bind (execDefaults 1
              ((mkN .AST_SWITCH none
                [mkN .AST_INT_LITERAL (some "1") []]).children.drop 1)
              none q.2.2)
            fun d =>
          match d.1 with
          | some r => .ok (r, none, d.2)
          | none => .ok (.vVoid, none, d.2) :=
  switch_first_match_fallthrough.2.2 1
    (mkN .AST_SWITCH none [mkN .AST_INT_LITERAL (some "1") []])
    (mkN .AST_INT_LITERAL (some "1") []) none initialState rfl rfl


/-! ### C2: the Break and Continue signalling values -/

/-- Counterexample to the claim as stated: in `define f(): break` followed
by `int x = f()`, the break statement has no enclosing loop in the
function body, so `exec_block` propagates the Break value out of the body,
`eval`'s call path returns it as the call's result, and the variable
declaration binds it — after the run the global environment binds `x` to
the internal Break signalling value. -/
theorem break_value_escapes : breakEscapeCheck = true := by rfl

/-- The amended signalling claim.  What the code guarantees: (1)–(2)
`exec` of a break/continue statement returns the signalling value to its
caller; (3)–(4) a while loop absorbs a Break from its body (the loop
returns void) and turns a Continue into the next iteration; (5)–(6) a
do-while loop absorbs Break the same way and a Continue jumps to its
condition test, entering the next iteration when the test holds; (7)–(8)
a foreach loop absorbs Break and turns a Continue into the iteration on
the next index; (9)–(10) a C-style for loop absorbs Break and on Continue
runs the increment and enters the next iteration; (11) `exec_block`'s
statement loop stops at *any* non-void result — signalling values
included — and returns it unchanged; (12) a user-function call returns
whatever its body block produced, with no filtering of signalling
values.  So the signals are confined exactly when every break/continue
executes inside an enclosing loop in the same function body; a bare
break in a function body escapes as the call's value (see the
counterexample). -/
theorem signal_absorption_and_escape :
    (∀ (step : Step) (n : ASTNode) (envH : Option Nat) (s : InterpState),
      n.type = ASTNodeType.AST_BREAK →
      execF step n envH s =
        .ok (.vBreak, envH, { s with lastDefinedClass := none })) ∧
    (∀ (step : Step) (n : ASTNode) (envH : Option Nat) (s : InterpState),
      n.type = ASTNodeType.AST_CONTINUE →
      execF step n envH s =
        .ok (.vContinue, envH, { s with lastDefinedClass := none })) ∧
    (∀ (step : Step) (condE body : ASTNode) (envH : Option Nat)
       (s s1 s2 : InterpState) (cv r : Value),
      evalV step condE envH s = .ok (cv, s1) →
      condIntVal cv = .ok true →
      execBlockF step body envH s1 = .ok (r, s2) →
      r.type = ValueType.VAL_BREAK →
      execWhileF step condE body envH s = .ok (.vVoid, s2)) ∧
    (∀ (step : Step) (condE body : ASTNode) (envH : Option Nat)
       (s s1 s2 : InterpState) (cv r : Value),
      evalV step condE envH s = .ok (cv, s1) →
      condIntVal cv = .ok true →
      execBlockF step body envH s1 = .ok (r, s2) →
      r.type = ValueType.VAL_CONTINUE →
      execWhileF step condE body envH s = whileV step condE body envH s2) ∧
    (∀ (step : Step) (body condE : ASTNode) (envH : Option Nat)
       (s s1 : InterpState) (r : Value),
      execBlockF step body envH s = .ok (r, s1) →
      r.type = ValueType.VAL_BREAK →
      execDoWhileF step body condE envH s = .ok (.vVoid, s1)) ∧
    (∀ (step : Step) (body condE : ASTNode) (envH : Option Nat)
       (s s1 s2 : InterpState) (r cv : Value),
      execBlockF step body envH s = .ok (r, s1) →
      r.type = ValueType.VAL_CONTINUE →
      evalV step condE envH s1 = .ok (cv, s2) →
      condIntVal cv = .ok true →
      execDoWhileF step body condE envH s =
        doWhileV step body condE envH s2) ∧
    (∀ (step : Step) (varName : String) (body : ASTNode) (lref i : Nat)
       (envH : Option Nat) (s s2 : InterpState) (items : List Value)
       (cap : Nat) (fixed : Bool) (item r : Value),
      s.getObj lref = some (.listObj items cap fixed) →
      items.get? i = some item →
      execBlockF step body (some s.heap.length)
          { s with heap := s.heap ++ [.envNode varName item envH] } =
        .ok (r, s2) →
      r.type = ValueType.VAL_BREAK →
      execForeachF step varName body lref i envH s = .ok (.vVoid, s2)) ∧
    (∀ (step : Step) (varName : String) (body : ASTNode) (lref i : Nat)
       (envH : Option Nat) (s s2 : InterpState) (items : List Value)
       (cap : Nat) (fixed : Bool) (item r : Value),
      s.getObj lref = some (.listObj items cap fixed) →
      items.get? i = some item →
      execBlockF step body (some s.heap.length)
          { s with heap := s.heap ++ [.envNode varName item envH] } =
        .ok (r, s2) →
      r.type = ValueType.VAL_CONTINUE →
      execForeachF step varName body lref i envH s =
        foreachV step varName body lref (i + 1) envH s2) ∧
    (∀ (step : Step) (condE incr body : ASTNode) (forEnv : Option Nat)
       (s s1 s2 : InterpState) (cv r : Value),
      evalV step condE forEnv s = .ok (cv, s1) →
      condIntVal cv = .ok true →
      execBlockF step body forEnv s1 = .ok (r, s2) →
      r.type = ValueType.VAL_BREAK →
      execForLoopF step condE incr body forEnv s = .ok (.vVoid, s2)) ∧
    (∀ (step : Step) (condE incr body : ASTNode)
       (forEnv forEnv' : Option Nat) (s s1 s2 s3 : InterpState)
       (cv r v3 : Value),
      evalV step condE forEnv s = .ok (cv, s1) →
      condIntVal cv = .ok true →
      execBlockF step body forEnv s1 = .ok (r, s2) →
      r.type = ValueType.VAL_CONTINUE →
      execV step incr forEnv s2 = .ok (v3, forEnv', s3) →
      execForLoopF step condE incr body forEnv s =
        forV step condE incr body forEnv' s3) ∧
    (∀ (step : Step) (st : ASTNode) (rest : List ASTNode)
       (envH envH' : Option Nat) (s s1 : InterpState) (r : Value),
      execV step st envH s = .ok (r, envH', s1) →
      r.type ≠ ValueType.VAL_VOID →
      execStmtsF step (st :: rest) envH s = .ok (r, s1)) ∧
    (∀ (step : Step) (fref : Nat) (nm : String) (bodyN blk : ASTNode)
       (fenv : Option Nat) (s s1 : InterpState) (r : Value),
      s.getObj fref = some (.funcObj nm bodyN fenv) →
      bodyN.args = [] →
      bodyN.child? 0 = some blk →
      execBlockF step blk fenv s = .ok (r, s1) →
      callUserFuncF step fref [] s = .ok (r, s1)) := by
  refine ⟨?_, ?_, ?_, ?_, ?_, ?_, ?_, ?_, ?_, ?_, ?_, ?_⟩
  · intro step n envH s ht
    have hne : ¬(n.type = ASTNodeType.AST_FUNC_DEF ∨
        n.type = ASTNodeType.AST_CLASS_DEF) := by rw [ht]; decide
    simp only [execF]
    rw [if_neg hne]
    simp only [ht]
  · intro step n envH s ht
    have hne : ¬(n.type = ASTNodeType.AST_FUNC_DEF ∨
        n.type = ASTNodeType.AST_CLASS_DEF) := by rw [ht]; decide
    simp only [execF]
    rw [if_neg hne]
    simp only [ht]
  · intro step condE body envH s s1 s2 cv r hev hb hbl hbr
    simp [execWhileF, hev, hb, hbl, hbr]
  · intro step condE body envH s s1 s2 cv r hev hb hbl hbr
    simp [execWhileF, hev, hb, hbl, hbr]
  · intro step body condE envH s s1 r hbl hbr
    simp [execDoWhileF, hbl, hbr]
  · intro step body condE envH s s1 s2 r cv hbl hbr hev hb
    simp [execDoWhileF, hbl, hbr, hev, hb]
  · intro step varName body lref i envH s s2 items cap fixed item r
      hlk hit hbl hbr
    rw [List.get?_eq_getElem?] at hit
    simp [execForeachF, hlk, hit, env_define, allocObj, value_copy, hbl, hbr]
  · intro step varName body lref i envH s s2 items cap fixed item r
      hlk hit hbl hbr
    rw [List.get?_eq_getElem?] at hit
    simp [execForeachF, hlk, hit, env_define, allocObj, value_copy, hbl, hbr]
  · intro step condE incr body forEnv s s1 s2 cv r hev hb hbl hbr
    simp [execForLoopF, hev, hb, hbl, hbr]
  · intro step condE incr body forEnv forEnv' s s1 s2 s3 cv r v3
      hev hb hbl hbr hinc
    simp [execForLoopF, hev, hb, hbl, hbr, hinc]
  · intro step st rest envH envH' s s1 r hst hr
    simp [execStmtsF, hst, hr]
  · intro step fref nm bodyN blk fenv s s1 r hf hargs hblk hbl
    simp [callUserFuncF, hf, hargs, hblk, bindParams, hbl]

/-- Witness for the amended signalling claim: each conjunct applied at
concrete statements over small concrete states. -/
theorem signal_absorption_and_escape_witness :
    execF (interpRun 1) (mkN .AST_BREAK none []) none initialState =
      .ok (.vBreak, none, { initialState with lastDefinedClass := none }) ∧
    execF (interpRun 1) (mkN .AST_CONTINUE none []) none initialState =
      .ok (.vContinue, none,
        { initialState with lastDefinedClass := none }) ∧
    execWhileF (interpRun 1) (mkN .AST_BOOL_LITERAL (some "true") [])
        (mkN .AST_BLOCK none [mkN .AST_BREAK none []]) none initialState =
      .ok (.vVoid, { initialState with lastDefinedClass := none }) ∧
    execWhileF (interpRun 1) (mkN .AST_BOOL_LITERAL (some "true") [])
        (mkN .AST_BLOCK none [mkN .AST_CONTINUE none []]) none initialState =
      whileV (interpRun 1) (mkN .AST_BOOL_LITERAL (some "true") [])
        (mkN .AST_BLOCK none [mkN .AST_CONTINUE none []]) none
        { initialState with lastDefinedClass := none } ∧
    execDoWhileF (interpRun 1) (mkN .AST_BLOCK none [mkN .AST_BREAK none []])
        (mkN .AST_BOOL_LITERAL (some "true") []) none initialState =
      .ok (.vVoid, { initialState with lastDefinedClass := none }) ∧
    execDoWhileF (interpRun 1)
        (mkN .AST_BLOCK none [mkN .AST_CONTINUE none []])
        (mkN .AST_BOOL_LITERAL (some "true") []) none initialState =
      doWhileV (interpRun 1) (mkN .AST_BLOCK none [mkN .AST_CONTINUE none []])
        (mkN .AST_BOOL_LITERAL (some "true") []) none
        { initialState with lastDefinedClass := none } ∧
    execForeachF (interpRun 1) "it"
        (mkN .AST_BLOCK none [mkN .AST_BREAK none []]) 0 0 none
        ⟨[.listObj [Value.vInt 7] 1 false], none, none, none, none, none,
          []⟩ =
      .ok (.vVoid,
        { (⟨[.listObj [Value.vInt 7] 1 false], none, none, none, none, none,
            []⟩ : InterpState) with
          heap := [Obj.listObj [Value.vInt 7] 1 false] ++
            [Obj.envNode "it" (Value.vInt 7) none],
          lastDefinedClass := none }) ∧
    execForeachF (interpRun 1) "it"
        (mkN .AST_BLOCK none [mkN .AST_CONTINUE none []]) 0 0 none
        ⟨[.listObj [Value.vInt 7] 1 false], none, none, none, none, none,
          []⟩ =
      foreachV (interpRun 1) "it"
        (mkN .AST_BLOCK none [mkN .AST_CONTINUE none []]) 0 (0 + 1) none
        { (⟨[.listObj [Value.vInt 7] 1 false], none, none, none, none, none,
            []⟩ : InterpState) with
          heap := [Obj.listObj [Value.vInt 7] 1 false] ++
            [Obj.envNode "it" (Value.vInt 7) none],
          lastDefinedClass := none } ∧
    execForLoopF (interpRun 1) (mkN .AST_BOOL_LITERAL (some "true") [])
        (mkN .AST_BREAK none [])
        (mkN .AST_BLOCK none [mkN .AST_BREAK none []]) none initialState =
      .ok (.vVoid, { initialState with lastDefinedClass := none }) ∧
    execForLoopF (interpRun 2) (mkN .AST_BOOL_LITERAL (some "true") [])
        (mkN .AST_INT_LITERAL (some "1") [])
        (mkN .AST_BLOCK none [mkN .AST_CONTINUE none []]) none
        initialState =
      forV (interpRun 2) (mkN .AST_BOOL_LITERAL (some "true") [])
        (mkN .AST_INT_LITERAL (some "1") [])
        (mkN .AST_BLOCK none [mkN .AST_CONTINUE none []]) none
        { initialState with lastDefinedClass := none } ∧
    execStmtsF (interpRun 1)
        [mkN .AST_BREAK none [], mkN .AST_PRINT none []] none initialState =
      .ok (.vBreak, { initialState with lastDefinedClass := none }) ∧
    callUserFuncF (interpRun 1) 0 []
        ⟨[.funcObj "f" (funcDefNode "f" [] [mkN .AST_BREAK none []]) none],
          none, none, none, none, none, []⟩ =
      .ok (.vBreak,
        { (⟨[.funcObj "f" (funcDefNode "f" [] [mkN .AST_BREAK none []])
              none], none, none, none, none, none, []⟩ : InterpState) with
          lastDefinedClass := none }) :=
  ⟨signal_absorption_and_escape.1 (interpRun 1) (mkN .AST_BREAK none [])
      none initialState rfl,
   signal_absorption_and_escape.2.1 (interpRun 1)
      (mkN .AST_CONTINUE none []) none initialState rfl,
   signal_absorption_and_escape.2.2.1 (interpRun 1)
      (mkN .AST_BOOL_LITERAL (some "true") [])
      (mkN .AST_BLOCK none [mkN .AST_BREAK none []]) none initialState
      initialState { initialState with lastDefinedClass := none }
      (.vBool true) .vBreak rfl rfl rfl rfl,
   signal_absorption_and_escape.2.2.2.1 (interpRun 1)
      (mkN .AST_BOOL_LITERAL (some "true") [])
      (mkN .AST_BLOCK none [mkN .AST_CONTINUE none []]) none initialState
      initialState { initialState with lastDefinedClass := none }
      (.vBool true) .vContinue rfl rfl rfl rfl,
   signal_absorption_and_escape.2.2.2.2.1 (interpRun 1)
      (mkN .AST_BLOCK none [mkN .AST_BREAK none []])
      (mkN .AST_BOOL_LITERAL (some "true") []) none initialState
      { initialState with lastDefinedClass := none } .vBreak rfl rfl,
   signal_absorption_and_escape.2.2.2.2.2.1 (interpRun 1)
      (mkN .AST_BLOCK none [mkN .AST_CONTINUE none []])
      (mkN .AST_BOOL_LITERAL (some "true") []) none initialState
      { initialState with lastDefinedClass := none }
      { initialState with lastDefinedClass := none } .vContinue
      (.vBool true) rfl rfl rfl rfl,
   signal_absorption_and_escape.2.2.2.2.2.2.1 (interpRun 1) "it"
      (mkN .AST_BLOCK none [mkN .AST_BREAK none []]) 0 0 none
      ⟨[.listObj [Value.vInt 7] 1 false], none, none, none, none, none, []⟩
      ({ (⟨[.listObj [Value.vInt 7] 1 false], none, none, none, none, none,
          []⟩ : InterpState) with
        heap := [Obj.listObj [Value.vInt 7] 1 false] ++
          [Obj.envNode "it" (Value.vInt 7) none],
        lastDefinedClass := none })
      [Value.vInt 7] 1 false (Value.vInt 7) .vBreak rfl rfl rfl rfl,
   signal_absorption_and_escape.2.2.2.2.2.2.2.1 (interpRun 1) "it"
      (mkN .AST_BLOCK none [mkN .AST_CONTINUE none []]) 0 0 none
      ⟨[.listObj [Value.vInt 7] 1 false], none, none, none, none, none, []⟩
      ({ (⟨[.listObj [Value.vInt 7] 1 false], none, none, none, none, none,
          []⟩ : InterpState) with
        heap := [Obj.listObj [Value.vInt 7] 1 false] ++
          [Obj.envNode "it" (Value.vInt 7) none],
        lastDefinedClass := none })
      [Value.vInt 7] 1 false (Value.vInt 7) .vContinue rfl rfl rfl rfl,
   signal_absorption_and_escape.2.2.2.2.2.2.2.2.1 (interpRun 1)
      (mkN .AST_BOOL_LITERAL (some "true") []) (mkN .AST_BREAK none [])
      (mkN .AST_BLOCK none [mkN .AST_BREAK none []]) none initialState
      initialState { initialState with lastDefinedClass := none }
      (.vBool true) .vBreak rfl rfl rfl rfl,
   signal_absorption_and_escape.2.2.2.2.2.2.2.2.2.1 (interpRun 2)
      (mkN .AST_BOOL_LITERAL (some "true") [])
      (mkN .AST_INT_LITERAL (some "1") [])
      (mkN .AST_BLOCK none [mkN .AST_CONTINUE none []]) none none
      initialState initialState
      { initialState with lastDefinedClass := none }
      { initialState with lastDefinedClass := none } (.vBool true)
      .vContinue .vVoid rfl rfl rfl rfl rfl,
   signal_absorption_and_escape.2.2.2.2.2.2.2.2.2.2.1 (interpRun 1)
      (mkN .AST_BREAK none []) [mkN .AST_PRINT none []] none none
      initialState { initialState with lastDefinedClass := none } .vBreak
      rfl (by decide),
   signal_absorption_and_escape.2.2.2.2.2.2.2.2.2.2.2 (interpRun 1) 0 "f"
      (funcDefNode "f" [] [mkN .AST_BREAK none []])
      (mkN .AST_BLOCK none [mkN .AST_BREAK none []]) none
      ⟨[.funcObj "f" (funcDefNode "f" [] [mkN .AST_BREAK none []]) none],
        none, none, none, none, none, []⟩
      { (⟨[.funcObj "f" (funcDefNode "f" [] [mkN .AST_BREAK none []]) none],
          none, none, none, none, none, []⟩ : InterpState) with
        lastDefinedClass := none } .vBreak rfl rfl rfl rfl⟩


/-! ### C6: closures resolve free variables at the definition site -/

/-- Appending an object to the heap does not change the environment-chain
walk from any existing node. -/
theorem envFindAt_append (s : InterpState) (o : Obj) (x : String) :
    ∀ (fuel j : Nat), j < s.heap.length →
      envFindAt { s with heap := s.heap ++ [o] } fuel j x =
        envFindAt s fuel j x := by
  intro fuel
  induction fuel with
  | zero => intro j hj; rfl
  | succ f ih =>
    intro j hj
    have hobj : ({ s with heap := s.heap ++ [o] } : InterpState).getObj j =
        s.getObj j := by
      simp only [InterpState.getObj]
      exact List.get?_append hj
    simp only [envFindAt, hobj]
    cases s.getObj j with
    | none => rfl
    | some ob =>
      cases ob with
      | envNode n v next =>
        simp only []
        by_cases hn : n = x
        · rw [if_pos hn, if_pos hn]
        · rw [if_neg hn, if_neg hn]
          cases next with
          | none => rfl
          | some j2 =>
            simp only []
            by_cases hj2 : j2 < j
            · rw [if_pos hj2, if_pos hj2]
              exact ih j2 (Nat.lt_trans hj2 hj)
            · rw [if_neg hj2, if_neg hj2]
      | listObj a b c => rfl
      | mapObj a b c => rfl
      | funcObj a b c => rfl
      | classObj a b c d => rfl
      | instObj a b => rfl
      | boundMethodObj a b => rfl
      | moduleObj a b => rfl

/-- The chain walk's fuel is irrelevant once it covers the node index: the
`j < i` guard makes the walk descend, so `j + 1` steps always suffice. -/
theorem envFindAt_fuel (s : InterpState) (x : String) :
    ∀ (j f : Nat), j + 1 ≤ f →
      envFindAt s f j x = envFindAt s (j + 1) j x := by
  intro j
  induction j using Nat.strong_induction_on with
  | _ j ihj =>
    intro f hf
    match f, hf with
    | f' + 1, hf2 =>
      simp only [envFindAt]
      cases s.getObj j with
      | none => rfl
      | some ob =>
        cases ob with
        | envNode n v next =>
          simp only []
          by_cases hn : n = x
          · rw [if_pos hn, if_pos hn]
          · rw [if_neg hn, if_neg hn]
            cases next with
            | none => rfl
            | some j2 =>
              simp only []
              by_cases hj2 : j2 < j
              · rw [if_pos hj2, if_pos hj2]
                have h1 : envFindAt s f' j2 x = envFindAt s (j2 + 1) j2 x :=
                  ihj j2 hj2 f' (Nat.le_trans (Nat.succ_le_of_lt hj2)
                    (Nat.le_of_succ_le_succ hf2))
                have h2 : envFindAt s j j2 x = envFindAt s (j2 + 1) j2 x :=
                  ihj j2 hj2 j (Nat.succ_le_of_lt hj2)
                rw [h1, h2]
              · rw [if_neg hj2, if_neg hj2]
        | listObj a b c => rfl
        | mapObj a b c => rfl
        | funcObj a b c => rfl
        | classObj a b c d => rfl
        | instObj a b => rfl
        | boundMethodObj a b => rfl
        | moduleObj a b => rfl

/-- ### C6: a function captures its definition environment

First conjunct: executing a function definition (latch clear) allocates a
function object whose stored environment is exactly the environment head
current at the definition site — whatever block that head belongs to.
Second conjunct: a later call of that function binds the parameter in a
fresh environment node whose tail is the *captured* head, and runs the
body block there (the caller's environment plays no part).  Third
conjunct: in that call environment, looking up any name other than the
parameter gives exactly the lookup in the captured environment — so a free
variable of the body resolves to the binding visible at the definition
site, even after the defining block has exited (the defining chain lives
in the heap and is unaffected by the heap extension). -/
theorem closure_captures_definition_env :
    (∀ (fuel : Nat) (node : ASTNode) (name : String) (envH : Option Nat)
       (s : InterpState),
      node.type = ASTNodeType.AST_FUNC_DEF →
      node.value = some name →
      s.lastDefinedClass = none →
      execFuel (fuel + 1) node envH s =
        .ok (.vVoid, some (s.heap.length + 1),
          { s with heap := s.heap ++
              [Obj.funcObj name node envH,
               Obj.envNode name (.vFunc s.heap.length) envH] })) ∧
    (∀ (step : Step) (fref : Nat) (nm : String) (bodyN blk : ASTNode)
       (fenv : Option Nat) (param : String) (arg : Value) (s : InterpState),
      s.getObj fref = some (.funcObj nm bodyN fenv) →
      bodyN.args = [param] →
      bodyN.child? 0 = some blk →
      callUserFuncF step fref [arg] s =
        execBlockF step blk (some s.heap.length)
          { s with heap := s.heap ++ [Obj.envNode param arg fenv] }) ∧
    (∀ (s : InterpState) (param : String) (arg : Value) (fenv : Option Nat)
       (x : String),
      x ≠ param →
      (∀ j, fenv = some j → j < s.heap.length) →
      envChainFind { s with heap := s.heap ++ [Obj.envNode param arg fenv] }
          (some s.heap.length) x = envChainFind s fenv x) := by
  refine ⟨?_, ?_, ?_⟩
  · intro fuel node name envH s ht hv hl
    rw [execFuel_succ]
    simp only [execF]
    rw [if_pos (Or.inl ht)]
    simp only [ht, hv, allocObj]
    rw [show ({ s with heap := s.heap ++ [Obj.funcObj name node envH] }
        : InterpState).lastDefinedClass = none from hl]
    simp only [env_define, allocObj, value_copy, List.append_assoc,
      List.cons_append, List.nil_append, List.length_append,
      List.length_cons, List.length_nil]
  · intro step fref nm bodyN blk fenv param arg s hf hargs hblk
    simp only [callUserFuncF, hf, hargs, bindParams, env_define, allocObj,
      value_copy, Res.bind_ok]
    have hget : ({ s with heap := s.heap ++ [Obj.envNode param arg none] }
        : InterpState).getObj s.heap.length =
        some (Obj.envNode param arg none) := by
      simp only [InterpState.getObj]
      exact List.get?_concat_length _ _
    simp only [envSetTailNext, envSetTailNextF, hget, InterpState.setObj,
      list_set_append_len, Res.bind_ok, hblk]
  · intro s param arg fenv x hx hb
    have hget : ({ s with heap := s.heap ++ [Obj.envNode param arg fenv] }
        : InterpState).getObj s.heap.length =
        some (Obj.envNode param arg fenv) := by
      simp only [InterpState.getObj]
      exact List.get?_concat_length _ _
    simp only [envChainFind, envFindAt, hget]
    rw [if_neg (fun h => hx h.symm)]
    cases fenv with
    | none => rfl
    | some j =>
      simp only []
      have hj : j < s.heap.length := hb j rfl
      rw [if_pos hj]
      rw [envFindAt_append s (Obj.envNode param arg (some j)) x
        s.heap.length j hj]
      exact envFindAt_fuel s x j s.heap.length (Nat.succ_le_of_lt hj)

/-- Witness for the closure claim: a function defined under a binding
`y = 7`, called with argument `3`; the call environment chains the
parameter node to the captured head, and looking up `y` there yields the
definition-site binding. -/
theorem closure_captures_definition_env_witness :
    execFuel (0 + 1)
        (funcDefNode "g" ["p"]
          [mkN .AST_RETURN none [mkN .AST_VAR_REF (some "y") []]]) (some 0)
        ⟨[Obj.envNode "y" (.vInt 7) none], none, none, none, none, none,
          []⟩ =
      .ok (.vVoid, some 2,
        { (⟨[Obj.envNode "y" (.vInt 7) none], none, none, none, none, none,
            []⟩ : InterpState) with
          heap := [Obj.envNode "y" (.vInt 7) none] ++
            [Obj.funcObj "g"
              (funcDefNode "g" ["p"]
                [mkN .AST_RETURN none [mkN .AST_VAR_REF (some "y") []]])
              (some 0),
             Obj.envNode "g" (.vFunc 1) (some 0)] }) ∧
    callUserFuncF (interpRun 1) 1 [.vInt 3]
        ⟨[Obj.envNode "y" (.vInt 7) none,
          Obj.funcObj "g"
            (funcDefNode "g" ["p"]
              [mkN .AST_RETURN none [mkN .AST_VAR_REF (some "y") []]])
            (some 0)], none, none, none, none, none, []⟩ =
      execBlockF (interpRun 1)
        (mkN .AST_BLOCK none
          [mkN .AST_RETURN none [mkN .AST_VAR_REF (some "y") []]]) (some 2)
        { (⟨[Obj.envNode "y" (.vInt 7) none,
            Obj.funcObj "g"
              (funcDefNode "g" ["p"]
                [mkN .AST_RETURN none [mkN .AST_VAR_REF (some "y") []]])
              (some 0)], none, none, none, none, none, []⟩ : InterpState)
          with
          heap := [Obj.envNode "y" (.vInt 7) none,
            Obj.funcObj "g"
              (funcDefNode "g" ["p"]
                [mkN .AST_RETURN none [mkN .AST_VAR_REF (some "y") []]])
              (some 0)] ++ [Obj.envNode "p" (.vInt 3) (some 0)] } ∧
    envChainFind
        { (⟨[Obj.envNode "y" (.vInt 7) none,
            Obj.funcObj "g"
              (funcDefNode "g" ["p"]
                [mkN .AST_RETURN none [mkN .AST_VAR_REF (some "y") []]])
              (some 0)], none, none, none, none, none, []⟩ : InterpState)
          with
          heap := [Obj.envNode "y" (.vInt 7) none,
            Obj.funcObj "g"
              (funcDefNode "g" ["p"]
                [mkN .AST_RETURN none [mkN .AST_VAR_REF (some "y") []]])
              (some 0)] ++ [Obj.envNode "p" (.vInt 3) (some 0)] } (some 2)
        "y" =
      envChainFind
        ⟨[Obj.envNode "y" (.vInt 7) none,
          Obj.funcObj "g"
            (funcDefNode "g" ["p"]
              [mkN .AST_RETURN none [mkN .AST_VAR_REF (some "y") []]])
            (some 0)], none, none, none, none, none, []⟩ (some 0) "y" :=
  ⟨closure_captures_definition_env.1 0
      (funcDefNode "g" ["p"]
        [mkN .AST_RETURN none [mkN .AST_VAR_REF (some "y") []]]) "g"
      (some 0)
      ⟨[Obj.envNode "y" (.vInt 7) none], none, none, none, none, none, []⟩
      rfl rfl rfl,
   closure_captures_definition_env.2.1 (interpRun 1) 1 "g"
      (funcDefNode "g" ["p"]
        [mkN .AST_RETURN none [mkN .AST_VAR_REF (some "y") []]])
      (mkN .AST_BLOCK none
        [mkN .AST_RETURN none [mkN .AST_VAR_REF (some "y") []]]) (some 0)
      "p" (.vInt 3)
      ⟨[Obj.envNode "y" (.vInt 7) none,
        Obj.funcObj "g"
          (funcDefNode "g" ["p"]
            [mkN .AST_RETURN none [mkN .AST_VAR_REF (some "y") []]])
          (some 0)], none, none, none, none, none, []⟩ rfl rfl rfl,
   closure_captures_definition_env.2.2
      ⟨[Obj.envNode "y" (.vInt 7) none,
        Obj.funcObj "g"
          (funcDefNode "g" ["p"]
            [mkN .AST_RETURN none [mkN .AST_VAR_REF (some "y") []]])
          (some 0)], none, none, none, none, none, []⟩ "p" (.vInt 3)
      (some 0) "y" (by decide)
      (by intro j hj; injection hj with h; subst h; decide)⟩


/-! ### C8: a second collection frees nothing

The mark phase is characterised as reachability: everything marked is
reachable from the roots, marking with the fuel `h.length + 1` of
`mark_roots` reaches every reachable address, and the reachability of
every marked address transfers to the swept heap — so a second collection
marks every survivor and the second sweep keeps everything. -/

theorem markObject_none (h : List (Nat × Obj)) (fuel : Nat) (m : List Nat)
    (i : Nat) (hlk : gcLookup h i = none) : markObject h fuel m i = m := by
  rw [markObject.eq_def, hlk]

theorem markObject_marked (h : List (Nat × Obj)) (fuel : Nat) (m : List Nat)
    (i : Nat) (o : Obj) (hlk : gcLookup h i = some o) (him : i ∈ m) :
    markObject h fuel m i = m := by
  rw [markObject.eq_def, hlk]; exact if_pos him

theorem markObject_zero (h : List (Nat × Obj)) (m : List Nat) (i : Nat)
    (o : Obj) (hlk : gcLookup h i = some o) (him : i ∉ m) :
    markObject h 0 m i = m := by
  rw [markObject.eq_def, hlk]; exact if_neg him

theorem markObject_new (h : List (Nat × Obj)) (fuel : Nat) (m : List Nat)
    (i : Nat) (o : Obj) (hlk : gcLookup h i = some o) (him : i ∉ m) :
    markObject h (fuel + 1) m i =
      markChildren h fuel (i :: m) (objChildIds o) := by
  rw [markObject.eq_def, hlk]; exact if_neg him

theorem markChildren_nil (h : List (Nat × Obj)) (fuel : Nat)
    (m : List Nat) : markChildren h fuel m [] = m := by
  rw [markChildren.eq_def]

theorem markChildren_cons (h : List (Nat × Obj)) (fuel : Nat) (m : List Nat)
    (c : Nat) (cs : List Nat) :
    markChildren h fuel m (c :: cs) =
      markChildren h fuel (markObject h fuel m c) cs := by
  rw [markChildren.eq_def]

/-- Marking only adds to the mark set. -/
theorem mark_mono (h : List (Nat × Obj)) : ∀ fuel : Nat,
    (∀ (m : List Nat) (i : Nat), m ⊆ markObject h fuel m i) ∧
    (∀ (m cs : List Nat), m ⊆ markChildren h fuel m cs) := by
  intro fuel
  induction fuel with
  | zero =>
    have hMO : ∀ (m : List Nat) (i : Nat), m ⊆ markObject h 0 m i := by
      intro m i x hx
      cases hlk : gcLookup h i with
      | none => rw [markObject_none h 0 m i hlk]; exact hx
      | some o =>
        by_cases him : i ∈ m
        · rw [markObject_marked h 0 m i o hlk him]; exact hx
        · rw [markObject_zero h m i o hlk him]; exact hx
    refine ⟨hMO, ?_⟩
    intro m cs
    induction cs generalizing m with
    | nil => rw [markChildren_nil]; exact fun x hx => hx
    | cons c cs' ihc =>
      rw [markChildren_cons]
      exact fun x hx => ihc _ (hMO m c hx)
  | succ f ihf =>
    have hMO : ∀ (m : List Nat) (i : Nat), m ⊆ markObject h (f + 1) m i := by
      intro m i x hx
      cases hlk : gcLookup h i with
      | none => rw [markObject_none h (f + 1) m i hlk]; exact hx
      | some o =>
        by_cases him : i ∈ m
        · rw [markObject_marked h (f + 1) m i o hlk him]; exact hx
        · rw [markObject_new h f m i o hlk him]
          exact ihf.2 (i :: m) _ (List.mem_cons_of_mem _ hx)
    refine ⟨hMO, ?_⟩
    intro m cs
    induction cs generalizing m with
    | nil => rw [markChildren_nil]; exact fun x hx => hx
    | cons c cs' ihc =>
      rw [markChildren_cons]
      exact fun x hx => ihc _ (hMO m c hx)

/-- Marking is sound for any predicate closed under the child relation. -/
theorem mark_sound (h : List (Nat × Obj)) (S : Nat → Prop)
    (hS : ∀ (p : Nat) (o : Obj) (c : Nat) (oc : Obj), S p →
      gcLookup h p = some o → c ∈ objChildIds o → gcLookup h c = some oc →
      S c) : ∀ fuel : Nat,
    (∀ (m : List Nat) (i : Nat), (∀ x ∈ m, S x) →
      (∀ o, gcLookup h i = some o → S i) →
      ∀ x ∈ markObject h fuel m i, S x) ∧
    (∀ (m cs : List Nat), (∀ x ∈ m, S x) →
      (∀ c ∈ cs, ∀ o, gcLookup h c = some o → S c) →
      ∀ x ∈ markChildren h fuel m cs, S x) := by
  intro fuel
  induction fuel with
  | zero =>
    have hMO : ∀ (m : List Nat) (i : Nat), (∀ x ∈ m, S x) →
        (∀ o, gcLookup h i = some o → S i) →
        ∀ x ∈ markObject h 0 m i, S x := by
      intro m i hm hi x hx
      cases hlk : gcLookup h i with
      | none => rw [markObject_none h 0 m i hlk] at hx; exact hm x hx
      | some o =>
        by_cases him : i ∈ m
        · rw [markObject_marked h 0 m i o hlk him] at hx; exact hm x hx
        · rw [markObject_zero h m i o hlk him] at hx; exact hm x hx
    refine ⟨hMO, ?_⟩
    intro m cs
    induction cs generalizing m with
    | nil =>
      intro hm _ x hx; rw [markChildren_nil] at hx; exact hm x hx
    | cons c cs' ihc =>
      intro hm hcs x hx
      rw [markChildren_cons] at hx
      refine ihc _ ?_ (fun c' hc' => hcs c' (List.mem_cons_of_mem _ hc'))
        x hx
      exact hMO m c hm (hcs c (List.mem_cons_self _ _))
  | succ f ihf =>
    have hMO : ∀ (m : List Nat) (i : Nat), (∀ x ∈ m, S x) →
        (∀ o, gcLookup h i = some o → S i) →
        ∀ x ∈ markObject h (f + 1) m i, S x := by
      intro m i hm hi x hx
      cases hlk : gcLookup h i with
      | none => rw [markObject_none h (f + 1) m i hlk] at hx; exact hm x hx
      | some o =>
        by_cases him : i ∈ m
        · rw [markObject_marked h (f + 1) m i o hlk him] at hx
          exact hm x hx
        · rw [markObject_new h f m i o hlk him] at hx
          have hSi : S i := hi o hlk
          refine ihf.2 (i :: m) (objChildIds o) ?_ ?_ x hx
          · intro y hy
            rcases List.mem_cons.mp hy with rfl | hy2
            · exact hSi
            · exact hm y hy2
          · intro c hc oc hoc
            exact hS i o c oc hSi hlk hc hoc
    refine ⟨hMO, ?_⟩
    intro m cs
    induction cs generalizing m with
    | nil =>
      intro hm _ x hx; rw [markChildren_nil] at hx; exact hm x hx
    | cons c cs' ihc =>
      intro hm hcs x hx
      rw [markChildren_cons] at hx
      refine ihc _ ?_ (fun c' hc' => hcs c' (List.mem_cons_of_mem _ hc'))
        x hx
      exact hMO m c hm (hcs c (List.mem_cons_self _ _))

/-- A filter by a stronger predicate is no longer. -/
theorem length_filter_impl {α : Type} (l : List α) (p q : α → Bool)
    (hi : ∀ a ∈ l, q a = true → p a = true) :
    (l.filter q).length ≤ (l.filter p).length := by
  induction l with
  | nil => exact Nat.le_refl _
  | cons b t ih =>
    have ih' := ih (fun a ha => hi a (List.mem_cons_of_mem _ ha))
    cases hq : q b with
    | true =>
      have hp := hi b (List.mem_cons_self _ _) hq
      simp only [List.filter_cons, hq, hp]
      exact Nat.succ_le_succ ih'
    | false =>
      simp only [List.filter_cons, hq]
      cases hp : p b with
      | true =>
        simp only [if_pos rfl]
        exact Nat.le_trans ih' (Nat.le_succ _)
      | false => exact ih'

/-- Strictly shorter when an element is dropped by `q` but kept by `p`. -/
theorem length_filter_impl_lt {α : Type} (l : List α) (p q : α → Bool)
    (hi : ∀ a ∈ l, q a = true → p a = true) (a : α) (ha : a ∈ l)
    (hqa : q a = false) (hpa : p a = true) :
    (l.filter q).length < (l.filter p).length := by
  induction l with
  | nil => cases ha
  | cons b t ih =>
    have hi' := fun x hx => hi x (List.mem_cons_of_mem _ hx)
    rcases List.mem_cons.mp ha with rfl | hat
    · simp only [List.filter_cons, hqa, hpa]
      exact Nat.lt_succ_of_le (length_filter_impl t p q hi')
    · cases hq : q b with
      | true =>
        have hp := hi b (List.mem_cons_self _ _) hq
        simp only [List.filter_cons, hq, hp]
        exact Nat.succ_lt_succ (ih hi' hat)
      | false =>
        simp only [List.filter_cons, hq]
        cases hp : p b with
        | true =>
          simp only [if_pos rfl]
          exact Nat.lt_succ_of_le (Nat.le_of_lt (ih hi' hat))
        | false => exact ih hi' hat

/-- Growing the mark set cannot increase the unmarked count. -/
theorem unmarked_anti (h : List (Nat × Obj)) (m m' : List Nat)
    (hmm : m ⊆ m') : unmarkedCount h m' ≤ unmarkedCount h m := by
  refine length_filter_impl h _ _ ?_
  intro e _ hq
  simp only [Bool.not_eq_true'] at hq ⊢
  by_cases hem : e.1 ∈ m
  · have : m'.contains e.1 = true := by simp [hmm hem]
    rw [this] at hq
    cases hq
  · simp [hem]

/-- Marking a present, unmarked address strictly decreases the unmarked
count. -/
theorem unmarked_cons_lt (h : List (Nat × Obj)) (m : List Nat) (i : Nat)
    (o : Obj) (hlk : gcLookup h i = some o) (him : i ∉ m) :
    unmarkedCount h (i :: m) < unmarkedCount h m := by
  simp only [gcLookup, Option.map_eq_some'] at hlk
  obtain ⟨e, hfind, _⟩ := hlk
  have hmem : e ∈ h := List.mem_of_find?_eq_some hfind
  have hfst : e.1 = i := by
    have h2 := List.find?_some hfind
    simpa using h2
  refine length_filter_impl_lt h _ _ ?_ e hmem ?_ ?_
  · intro a _ hq
    simp only [Bool.not_eq_true'] at hq ⊢
    by_cases ham : a.1 ∈ m
    · have : (i :: m).contains a.1 = true := by
        simp [List.mem_cons_of_mem _ ham]
      rw [this] at hq
      cases hq
    · simp [ham]
  · simp [hfst]
  · simp [hfst, him]

/-- With fuel exceeding the unmarked count, marking reaches the argument
and every new mark is closed under present children. -/
theorem mark_complete (h : List (Nat × Obj)) : ∀ fuel : Nat,
    (∀ (m : List Nat) (i : Nat), unmarkedCount h m < fuel →
      ((∃ o, gcLookup h i = some o) → i ∈ markObject h fuel m i) ∧
      (∀ j, j ∈ markObject h fuel m i → j ∉ m →
        ClosedAt h (markObject h fuel m i) j)) ∧
    (∀ (m cs : List Nat), unmarkedCount h m < fuel →
      (∀ c ∈ cs, (∃ o, gcLookup h c = some o) →
        c ∈ markChildren h fuel m cs) ∧
      (∀ j, j ∈ markChildren h fuel m cs → j ∉ m →
        ClosedAt h (markChildren h fuel m cs) j)) := by
  intro fuel
  induction fuel with
  | zero =>
    exact ⟨fun m i hf => absurd hf (Nat.not_lt_zero _),
           fun m cs hf => absurd hf (Nat.not_lt_zero _)⟩
  | succ f ihf =>
    have hMO : ∀ (m : List Nat) (i : Nat), unmarkedCount h m < f + 1 →
        ((∃ o, gcLookup h i = some o) → i ∈ markObject h (f + 1) m i) ∧
        (∀ j, j ∈ markObject h (f + 1) m i → j ∉ m →
          ClosedAt h (markObject h (f + 1) m i) j) := by
      intro m i hfuel
      cases hlk : gcLookup h i with
      | none =>
        rw [markObject_none h (f + 1) m i hlk]
        constructor
        · rintro ⟨o, ho⟩
          simp at ho
        · intro j hj hjm
          exact absurd hj hjm
      | some o =>
        by_cases him : i ∈ m
        · rw [markObject_marked h (f + 1) m i o hlk him]
          exact ⟨fun _ => him, fun j hj hjm => absurd hj hjm⟩
        · rw [markObject_new h f m i o hlk him]
          have hum : unmarkedCount h (i :: m) < f :=
            Nat.lt_of_lt_of_le (unmarked_cons_lt h m i o hlk him)
              (Nat.le_of_lt_succ hfuel)
          have hMCf := ihf.2 (i :: m) (objChildIds o) hum
          constructor
          · intro _
            exact (mark_mono h f).2 (i :: m) (objChildIds o)
              (List.mem_cons_self _ _)
          · intro j hj hjm
            by_cases hji : j = i
            · subst hji
              intro o' hlk' c hc hcdom
              rw [hlk] at hlk'
              injection hlk' with ho'
              subst ho'
              exact hMCf.1 c hc hcdom
            · refine hMCf.2 j hj ?_
              intro hji2
              rcases List.mem_cons.mp hji2 with h2 | h2
              · exact hji h2
              · exact hjm h2
    refine ⟨hMO, ?_⟩
    intro m cs
    induction cs generalizing m with
    | nil =>
      intro hfuel
      rw [markChildren_nil]
      exact ⟨fun c hc => absurd hc (List.not_mem_nil c),
             fun j hj hjm => absurd hj hjm⟩
    | cons c cs' ihc =>
      intro hfuel
      rw [markChildren_cons]
      have hm1 : m ⊆ markObject h (f + 1) m c := (mark_mono h (f + 1)).1 m c
      have hfuel1 : unmarkedCount h (markObject h (f + 1) m c) < f + 1 :=
        Nat.lt_of_le_of_lt (unmarked_anti h m _ hm1) hfuel
      have hMOc := hMO m c hfuel
      have hrest := ihc (markObject h (f + 1) m c) hfuel1
      constructor
      · intro c' hc' hdom
        rcases List.mem_cons.mp hc' with rfl | hc2
        · exact (mark_mono h (f + 1)).2 _ cs' (hMOc.1 hdom)
        · exact hrest.1 c' hc2 hdom
      · intro j hj hjm
        by_cases hj1 : j ∈ markObject h (f + 1) m c
        · have hcl := hMOc.2 j hj1 hjm
          intro o' hlk' c2 hc2 hdom2
          exact (mark_mono h (f + 1)).2 _ cs' (hcl o' hlk' c2 hc2 hdom2)
        · exact hrest.2 j hj hj1

/-- Every present root is marked by `mark_roots`. -/
theorem markRoots_roots_mem (h : List (Nat × Obj)) (roots : List Nat) :
    ∀ c ∈ roots, (∃ o, gcLookup h c = some o) → c ∈ markRoots h roots := by
  have hf : unmarkedCount h [] < h.length + 1 :=
    Nat.lt_succ_of_le (List.length_filter_le _ _)
  exact ((mark_complete h (h.length + 1)).2 [] roots hf).1

/-- The mark set of `mark_roots` is closed under present children. -/
theorem markRoots_closed (h : List (Nat × Obj)) (roots : List Nat) :
    ∀ j ∈ markRoots h roots, ClosedAt h (markRoots h roots) j := by
  have hf : unmarkedCount h [] < h.length + 1 :=
    Nat.lt_succ_of_le (List.length_filter_le _ _)
  intro j hj
  exact ((mark_complete h (h.length + 1)).2 [] roots hf).2 j hj
    (List.not_mem_nil j)

/-- Completeness: every reachable address is marked. -/
theorem reach_mem_markRoots (h : List (Nat × Obj)) (roots : List Nat) :
    ∀ a, ReachesFrom h roots a → a ∈ markRoots h roots := by
  intro a hr
  induction hr with
  | root i o hi hlk => exact markRoots_roots_mem h roots i hi ⟨o, hlk⟩
  | child p c o oc hp hlkp hc hlkc ihp =>
    exact markRoots_closed h roots p ihp o hlkp c hc ⟨oc, hlkc⟩

/-- Soundness: every marked address is reachable. -/
theorem markRoots_reach (h : List (Nat × Obj)) (roots : List Nat) :
    ∀ a ∈ markRoots h roots, ReachesFrom h roots a := by
  intro a ha
  refine (mark_sound h (ReachesFrom h roots) ?_ (h.length + 1)).2 [] roots
    ?_ ?_ a ha
  · intro p o c oc hp hlkp hc hlkc
    exact .child p c o oc hp hlkp hc hlkc
  · intro x hx
    exact absurd hx (List.not_mem_nil x)
  · intro c hc o hlk
    exact .root c o hc hlk

/-- A lookup survives a filter that keeps the found entry. -/
theorem gcLookup_filter (h : List (Nat × Obj)) (q : Nat × Obj → Bool)
    (a : Nat) (o : Obj) (hl : gcLookup h a = some o)
    (hq : q (a, o) = true) : gcLookup (h.filter q) a = some o := by
  induction h with
  | nil => simp [gcLookup] at hl
  | cons e t ih =>
    obtain ⟨e1, e2⟩ := e
    by_cases hea : e1 = a
    · subst hea
      have hl2 : e2 = o := by
        simp only [gcLookup] at hl
        rw [List.find?_cons_of_pos _ (by simp)] at hl
        simpa using hl
      subst hl2
      rw [List.filter_cons_of_pos hq]
      simp only [gcLookup]
      rw [List.find?_cons_of_pos _ (by simp)]
      rfl
    · have hl3 : gcLookup t a = some o := by
        simp only [gcLookup] at hl ⊢
        rwa [List.find?_cons_of_neg _ (by simp [hea])] at hl
      by_cases hqe : q (e1, e2) = true
      · rw [List.filter_cons_of_pos hqe]
        simp only [gcLookup]
        rw [List.find?_cons_of_neg _ (by simp [hea])]
        exact ih hl3
      · rw [List.filter_cons_of_neg (by simpa using hqe)]
        exact ih hl3

/-- Reachability transfers to the swept heap: the whole path is marked,
so every node of it survives with the same object. -/
theorem reach_transfer (h : List (Nat × Obj)) (roots : List Nat) :
    ∀ a, ReachesFrom h roots a →
      ReachesFrom (sweep h (markRoots h roots)) roots a := by
  intro a hr
  induction hr with
  | root i o hi hlk =>
    have him : i ∈ markRoots h roots :=
      markRoots_roots_mem h roots i hi ⟨o, hlk⟩
    refine .root i o hi ?_
    simp only [sweep]
    exact gcLookup_filter h _ i o hlk (by simp [him])
  | child p c o oc hp hlkp hc hlkc ihp =>
    have hpm : p ∈ markRoots h roots := reach_mem_markRoots h roots p hp
    have hcm : c ∈ markRoots h roots :=
      markRoots_closed h roots p hpm o hlkp c hc ⟨oc, hlkc⟩
    refine .child p c o oc ihp ?_ hc ?_
    · simp only [sweep]
      exact gcLookup_filter h _ p o hlkp (by simp [hpm])
    · simp only [sweep]
      exact gcLookup_filter h _ c oc hlkc (by simp [hcm])

/-- ### C8: a second collection immediately after a first frees nothing

`gc_collect` is idempotent: collecting again right after a completed
collection, with the same roots and no intervening allocation or
mutation, keeps every object of the first collection's result — the
surviving object list is unchanged, element for element and in order. -/
theorem gc_second_collection_frees_nothing (h : List (Nat × Obj))
    (roots : List Nat) :
    gc_collect (gc_collect h roots) roots = gc_collect h roots := by
  simp only [gc_collect]
  show (sweep h (markRoots h roots)).filter
      (fun e => (markRoots (sweep h (markRoots h roots)) roots).contains
        e.1) =
    sweep h (markRoots h roots)
  refine List.filter_eq_self.mpr ?_
  intro e he
  have he1 : e.1 ∈ markRoots h roots := by
    have hm : e ∈ h ∧ e.1 ∈ markRoots h roots := by simpa [sweep] using he
    exact hm.2
  have hr : ReachesFrom h roots e.1 := markRoots_reach h roots e.1 he1
  have hr1 : ReachesFrom (sweep h (markRoots h roots)) roots e.1 :=
    reach_transfer h roots e.1 hr
  have hm2 : e.1 ∈ markRoots (sweep h (markRoots h roots)) roots :=
    reach_mem_markRoots _ roots e.1 hr1
  simpa using hm2

end Pith
